import Mathlib

/-!
# Verification of the PHYS150 notebook grading core

A shallow embedding, in Lean 4, of the grading engine of the PHYS150grader
repository: the safety gate (`safecode.py`), the sandboxed executor
(`safecode_unix.py`), the mock I/O layer (`core/mock_system.py`), the
expectation validator (`core/test_runner.py`) and the problem/test
orchestrator (`core/notebook_grader.py`).  Python values are modelled by the
inductive `Value` (floats as exact rationals, complex numbers as pairs of
rationals); fallible Python code is modelled with `Except`; the execution of
arbitrary student code is the one point of true dynamism and is modelled by an
oracle parameter giving the observable behaviour of one run.
-/

/-- A Python value as it occurs in the grading pipeline: TOML scalars,
sequences and tables, plus the complex numbers the validator builds and the
`None` that `getattr(ns, var, None)` produces.  Python floats are modelled as
exact rationals; `bool` is kept separate (but counts as numeric below, exactly
as `isinstance(True, int)` holds in Python). -/
inductive Value where
  | int (n : Int)
  | real (q : Rat)
  | complex (re im : Rat)
  | bool (b : Bool)
  | str (s : String)
  | list (xs : List Value)
  | dict (fields : List (String × Value))
  | none
  deriving Repr

/-- `isinstance(v, (int, float, complex))` together with the numeric reading of
the value as a complex number (Python arithmetic coerces int/float/bool to
complex when mixed with complex). -/
def Value.toComplexPair : Value → Option (Rat × Rat)
  | .int n => some ((n : Rat), 0)
  | .real q => some (q, 0)
  | .complex re im => some (re, im)
  | .bool b => some (if b then 1 else 0, 0)
  | _ => Option.none

/-- Whether the value is numeric in the sense of
`isinstance(v, (int, float, complex))`. -/
def Value.isNumeric (v : Value) : Bool := v.toComplexPair.isSome

mutual
/-- Python `==` on `Value`s: mixed numeric types compare by numeric value
(`1 == 1.0 == 1+0j == True`), strings and `None` by themselves, containers
element-wise.  Python compares dicts by key lookup; TOML tables keep their key
order, which the field-wise comparison below relies on. -/
def pyEq (a b : Value) : Bool :=
  match a.toComplexPair, b.toComplexPair with
  | some x, some y => x == y
  | _, _ =>
    match a, b with
    | .str s, .str t => s == t
    | .none, .none => true
    | .list xs, .list ys => pyEqList xs ys
    | .dict fs, .dict gs => pyEqFields fs gs
    | _, _ => false

def pyEqList : List Value → List Value → Bool
  | [], [] => true
  | x :: xs, y :: ys => pyEq x y && pyEqList xs ys
  | _, _ => false

def pyEqFields : List (String × Value) → List (String × Value) → Bool
  | [], [] => true
  | (k, v) :: fs, (l, w) :: gs => k == l && pyEq v w && pyEqFields fs gs
  | _, _ => false
end

/-- Python `str()` of a rational standing in for a float.  Exact only for
integral values (`str(5.0) = "5.0"`); other rationals are rendered as a
fraction, which no claim's verdict depends on. -/
def ratPyStr (q : Rat) : String :=
  if q.den = 1 then toString q.num ++ ".0" else toString q.num ++ "/" ++ toString q.den

mutual
/-- Python `str()` (`q = false`) and `repr()` (`q = true`) of a value, as used
when values are interpolated into diagnostic messages.  The two differ only on
strings, which `repr` quotes. -/
def pyStrQ : Bool → Value → String
  | q, .str s => if q then "'" ++ s ++ "'" else s
  | _, .int n => toString n
  | _, .real r => ratPyStr r
  | _, .complex re im => "(" ++ ratPyStr re ++ "+" ++ ratPyStr im ++ "j)"
  | _, .bool b => if b then "True" else "False"
  | _, .none => "None"
  | _, .list xs => "[" ++ pyStrList xs ++ "]"
  | _, .dict fs => "\x7b" ++ pyStrFields fs ++ "\x7d"

def pyStrList : List Value → String
  | [] => ""
  | [x] => pyStrQ true x
  | x :: xs => pyStrQ true x ++ ", " ++ pyStrList xs

def pyStrFields : List (String × Value) → String
  | [] => ""
  | [(k, v)] => "'" ++ k ++ "': " ++ pyStrQ true v
  | (k, v) :: fs => "'" ++ k ++ "': " ++ pyStrQ true v ++ ", " ++ pyStrFields fs
end

/-- Python `str()` of a value. -/
def pyStr (v : Value) : String := pyStrQ false v

/-- The characters Python's `str.strip()` and the regex class `\s` treat as
whitespace (ASCII range). -/
def isSpaceChar (c : Char) : Bool :=
  c == ' ' || c == '\t' || c == '\n' || c == '\r' || c == '\x0b' || c == '\x0c'

/-- Python `str.strip()` on a character list. -/
def pyStripList (cs : List Char) : List Char :=
  ((cs.dropWhile isSpaceChar).reverse.dropWhile isSpaceChar).reverse

/-- Python `str.strip()`. -/
def pyStrip (s : String) : String := ⟨pyStripList s.toList⟩

/-- `re.sub(r"\s+", " ", ·)`, character by character: a whitespace character
opens (or continues) a run; the first of a run becomes a single space
(`inRun` records whether the previous character was whitespace). -/
def collapseWSGo (inRun : Bool) : List Char → List Char
  | [] => []
  | c :: rest =>
    if isSpaceChar c then
      if inRun then collapseWSGo true rest
      else ' ' :: collapseWSGo true rest
    else c :: collapseWSGo false rest

/-- `re.sub(r"\s+", " ", ·)`: every maximal run of whitespace becomes a
single space. -/
def collapseWS (cs : List Char) : List Char := collapseWSGo false cs

/-- `TestValidator.normalize_whitespace`: strip, then collapse every whitespace
run to a single space  (`re.sub(r'\s+', ' ', text.strip())`). -/
def normalize_whitespace (s : String) : String := ⟨collapseWS (pyStripList s.toList)⟩

/-- Python `needle in hay` on strings: `needle` occurs as a contiguous
substring of `hay`. -/
def strContains (hay needle : String) : Bool :=
  hay.toList.tails.any (fun t => needle.toList.isPrefixOf t)

/-- Split a character list at every newline. -/
def splitNL : List Char → List (List Char)
  | [] => [[]]
  | c :: rest =>
    if c = '\n' then [] :: splitNL rest
    else
      match splitNL rest with
      | [] => [[c]]
      | g :: gs => (c :: g) :: gs

/-- Python `str.splitlines()` restricted to `\n` separators (the only
line separator occurring in notebook sources here): split at newlines, but a
trailing newline yields no final empty line. -/
def pySplitlines (s : String) : List String :=
  if s = "" then [] else
    let parts := (splitNL s.toList).map (fun l => (⟨l⟩ : String))
    if parts.getLast? = some "" then parts.dropLast else parts

/-- `str.lower()` (ASCII case folding, which covers the grading texts). -/
def pyLower (s : String) : String := ⟨s.toList.map Char.toLower⟩

/-! ## `safecode.py` — the Safety Gate -/

/-- `banned_imports` of `safecode.is_code_safe`. -/
def banned_imports : List String :=
  ["os", "sys", "subprocess", "socket", "shutil", "pathlib", "requests",
   "multiprocessing", "threading", "ctypes", "pickle"]

/-- `banned_patterns` of `safecode.is_code_safe`. -/
def banned_patterns : List String :=
  ["open(", "eval(", "exec(", "__import__", "compile(", "globals(", "locals(",
   "setattr(", "delattr(", "getattr(", "exit(", "quit(", "system(", "fork(",
   "kill(", "remove(", "rmdir(", "unlink(", "chmod(", "chown(", "popen(",
   "walk(", "makedirs(", "mkdir(", "rmtree(", "copy(", "move(", "rename(",
   "socket.", "threading.", "multiprocessing."]

/-- Whether the fragment contains `import M` or `from M import` for module
`M`, as raw substrings (`safecode.is_code_safe`'s per-import test). -/
def hasBannedImport (cell_code imp : String) : Bool :=
  strContains cell_code ("import " ++ imp) || strContains cell_code ("from " ++ imp ++ " import")

/-- `safecode.is_code_safe`: scan the import denylist first, then the pattern
denylist; the first hit yields `(false, reason)`, otherwise `(true, "")`. -/
def is_code_safe (cell_code : String) : Bool × String :=
  match banned_imports.find? (fun imp => hasBannedImport cell_code imp) with
  | some imp => (false, "Banned import detected: " ++ imp)
  | Option.none =>
    match banned_patterns.find? (fun pat => strContains cell_code pat) with
    | some pat => (false, "Banned code pattern detected: " ++ pat)
    | Option.none => (true, "")

/-- `safecode.remove_input_lines`: drop every line containing `input(`. -/
def remove_input_lines (code_string : String) : String :=
  String.intercalate "\n"
    ((pySplitlines code_string).filter (fun line => !strContains line "input("))

/-! ## The module-import model for `core/notebook_grader.py` (claim C1) -/

/-- The top-level names module `safecode` (src/safecode.py) binds when it
loads: its imports, its module-level configuration assignments, and its three
function definitions — and nothing else. -/
def safecode_module_names : List String :=
  ["sys", "SimpleNamespace", "multiprocessing", "toml", "os", "config_path",
   "config", "TIMEOUT", "run_cell", "is_code_safe", "remove_input_lines"]

/-- The names `core/notebook_grader.py` line 23 requests from `safecode`:
`from safecode import is_code_safe, sanitize_student_code`. -/
def notebook_grader_safecode_imports : List String :=
  ["is_code_safe", "sanitize_student_code"]

/-- Python's `from M import a, b` succeeds exactly when every requested name
is bound in the loaded module; otherwise module loading fails with an
ImportError before any other statement of the importing module runs. -/
def from_import_ok (module_names requested : List String) : Bool :=
  requested.all (fun n => module_names.contains n)

/-- Whether `core/notebook_grader.py` (the `NotebookGrader` module) can load:
its line-23 import of `safecode` must resolve every requested name. -/
def notebook_grader_import_ok : Bool :=
  from_import_ok safecode_module_names notebook_grader_safecode_imports

/-! ## `core/test_runner.py` — the Expectation Validator -/

/-- A propagating Python exception: its type's name and `str(e)`. -/
structure PyExc where
  ty : String
  msg : String
  deriving Repr, DecidableEq

/-- How validation can fail: `assert` models `raise AssertionError(msg)` (the
validator's designated failure channel, caught at the test boundary); `other`
models any other exception, which nothing in the orchestrator catches. -/
inductive VErr where
  | assert (msg : String)
  | other (e : PyExc)
  deriving Repr, DecidableEq

/-- First binding of a key in a Python dict modelled as an ordered field list. -/
def lookupField (fields : List (String × Value)) (key : String) : Option Value :=
  (fields.find? (fun kv => kv.1 == key)).map Prod.snd

/-- `TestValidator._convert_complex_if_needed`: a dict carrying both `real`
and `imag` keys becomes `complex(val['real'], val['imag'])`; `complex(a, b)`
is `a + b*1j` and raises TypeError when an argument is not numeric.  Any other
value passes through unchanged. -/
def convert_complex_if_needed (val : Value) : Except PyExc Value :=
  match val with
  | .dict fields =>
    match lookupField fields "real", lookupField fields "imag" with
    | some rv, some iv =>
      match rv.toComplexPair, iv.toComplexPair with
      | some a, some b => .ok (.complex (a.1 - b.2) (a.2 + b.1))
      | _, _ => .error ⟨"TypeError", "complex() argument must be a number"⟩
    | _, _ => .ok val
  | _ => .ok val

/-- `|z|²` for a complex number with rational parts. -/
def complexAbsSq (z : Rat × Rat) : Rat := z.1 * z.1 + z.2 * z.2

/-- `abs(z) > t`, phrased over rationals without a square root:
`√s > t ↔ t < 0 ∨ s > t²` (for `s ≥ 0`). -/
def complexAbsGtTol (z : Rat × Rat) (t : Rat) : Bool :=
  decide (t < 0) || decide (complexAbsSq z > t * t)

/-- `TestValidator._validate_with_tolerance`: both values must be numeric
(`isinstance(·, (int, float, complex))`), else AssertionError; then
AssertionError exactly when `abs(actual - expected) > tol`. -/
def validate_with_tolerance (var : String) (expected actual : Value) (tol : Rat) :
    Except VErr Unit :=
  match actual.toComplexPair, expected.toComplexPair with
  | some a, some e =>
    if complexAbsGtTol (a.1 - e.1, a.2 - e.2) tol then
      .error (.assert s!"test for {var} expected {pyStr expected} (tol={ratPyStr tol}), got {pyStr actual}")
    else .ok ()
  | _, _ =>
    .error (.assert s!"test for {var} expected {pyStr expected}, got {pyStr actual} (non-numeric, cannot use tol)")

/-- `TestValidator._validate_exact_match`: AssertionError unless
`actual == expected` (Python equality, `pyEq`). -/
def validate_exact_match (var : String) (expected actual : Value) : Except VErr Unit :=
  if pyEq actual expected then .ok ()
  else .error (.assert s!"test for {var} expected {pyStr expected}, got {pyStr actual}")

/-- How a test case's `input_overload` key drives the mock input: one fixed
value, or an ordered sequence consumed one call at a time. -/
inductive InputOverload where
  | single (v : Value)
  | seq (vs : List Value)
  deriving Repr

/-- `prefix_code` as the TOML allows it: a single string or a list of lines. -/
inductive PrefixCode where
  | one (s : String)
  | many (ls : List String)
  deriving Repr

/-- One test case's configuration dict.  `Option` fields model keys that may
be absent (`test.get(...)` / `KeyError` on direct indexing); `vars` models the
`"variables"` key (`variables` is a reserved word in Lean). -/
structure Test where
  type : Option String := Option.none
  vars : List (String × Value) := []
  input_overload : Option InputOverload := Option.none
  expected : Option Value := Option.none
  tol : Option Rat := Option.none
  format : Option String := Option.none
  case_sensitive : Option Bool := Option.none
  prefix_code : Option PrefixCode := Option.none
  deriving Repr

/-- `getattr(test_ns, var, None)` over the namespace's variable bindings. -/
def nsGet (ns : List (String × Value)) (var : String) : Value :=
  ((ns.find? (fun kv => kv.1 == var)).map Prod.snd).getD Value.none

/-- The per-variable loop of `TestValidator.validate_variable_test`. -/
def validate_variable_loop (tol : Option Rat) (ns : List (String × Value)) :
    List (String × Value) → Except VErr Unit
  | [] => .ok ()
  | (var, exp0) :: rest =>
    match convert_complex_if_needed exp0 with
    | .error e => .error (.other e)
    | .ok expected =>
      let actual := nsGet ns var
      let step :=
        match tol with
        | some t => validate_with_tolerance var expected actual t
        | Option.none => validate_exact_match var expected actual
      step.bind (fun _ => validate_variable_loop tol ns rest)

/-- `TestValidator.validate_variable_test`: iterate `test["expected"].items()`
(absent key → KeyError; non-dict → AttributeError, both propagating), convert
each expected value, read the namespace with a `None` default, and validate
with tolerance when `tol` is set, else exactly. -/
def validate_variable_test (test : Test) (ns : List (String × Value)) : Except VErr Unit :=
  match test.expected with
  | some (.dict fields) => validate_variable_loop test.tol ns fields
  | some _ => .error (.other ⟨"AttributeError", "'expected' value has no attribute 'items'"⟩)
  | Option.none => .error (.other ⟨"KeyError", "expected"⟩)

/-- Numeric value of `c.foldl` over decimal digits. -/
def digitsVal (cs : List Char) : Nat :=
  cs.foldl (fun a c => a * 10 + (c.toNat - '0'.toNat)) 0

/-- Python `float(s)` on a string: optional surrounding whitespace and sign,
decimal digits with optional fraction and exponent.  (`inf`/`nan` literals are
outside the grading configurations and not modelled.) -/
def parsePyFloat (s : String) : Option Rat :=
  let cs := pyStripList s.toList
  let signAndRest : Rat × List Char :=
    match cs with
    | '-' :: rest => (-1, rest)
    | '+' :: rest => (1, rest)
    | _ => (1, cs)
  let sign := signAndRest.1
  let cs1 := signAndRest.2
  let intPart := cs1.takeWhile Char.isDigit
  let cs2 := cs1.dropWhile Char.isDigit
  let fracAndRest : List Char × List Char :=
    match cs2 with
    | '.' :: rest => (rest.takeWhile Char.isDigit, rest.dropWhile Char.isDigit)
    | _ => ([], cs2)
  let fracPart := fracAndRest.1
  let cs3 := fracAndRest.2
  if intPart.isEmpty && fracPart.isEmpty then Option.none else
  let mantissa : Rat :=
    (digitsVal intPart : Rat) + (digitsVal fracPart : Rat) / ((10 : Rat) ^ fracPart.length)
  match cs3 with
  | [] => some (sign * mantissa)
  | e :: rest =>
    if e == 'e' || e == 'E' then
      let esignAndRest : Int × List Char :=
        match rest with
        | '-' :: r => (-1, r)
        | '+' :: r => (1, r)
        | _ => (1, rest)
      let eDigits := esignAndRest.2.takeWhile Char.isDigit
      let eRest := esignAndRest.2.dropWhile Char.isDigit
      if eDigits.isEmpty || !eRest.isEmpty then Option.none
      else some (sign * mantissa * (10 : Rat) ^ (esignAndRest.1 * (digitsVal eDigits : Int)))
    else Option.none

/-- Python `float(v)` on a grading value: numbers and numeric strings convert,
everything else raises (ValueError/TypeError, both caught by the caller's
fallback). -/
def pyFloatOfValue : Value → Option Rat
  | .int n => some (n : Rat)
  | .real q => some q
  | .bool b => some (if b then 1 else 0)
  | .str s => parsePyFloat s
  | _ => Option.none

/-- `TestValidator._compare_extracted_values`: try to compare the expected
value and the captured group text as floats (tolerance-aware when `tol` is
set); on ValueError/TypeError fall back to string equality. -/
def compare_extracted_values (var : String) (expected_val : Value) (actual_val : String)
    (tol : Option Rat) : Except VErr Unit :=
  match pyFloatOfValue expected_val, parsePyFloat actual_val with
  | some en, some an =>
    match tol with
    | some t =>
      if |an - en| > t then
        .error (.assert s!"{var}: expected {ratPyStr en} (tol={ratPyStr t}), got {ratPyStr an}")
      else .ok ()
    | Option.none =>
      if an ≠ en then
        .error (.assert s!"{var}: expected {ratPyStr en}, got {ratPyStr an}")
      else .ok ()
  | _, _ =>
    if actual_val ≠ pyStr expected_val then
      .error (.assert s!"{var}: expected '{pyStr expected_val}', got '{actual_val}'")
    else .ok ()

/-- One token of the regex `_validate_format_output` builds: a run of escaped
literal text, or a named capturing group `(?P<name>.+)` standing for one
`{name}` placeholder. -/
inductive FTok where
  | lit (s : String)
  | field (name : String)
  deriving Repr, DecidableEq

/-- Parse a plain format template (`Formatter().parse`) into literal and
placeholder tokens.  `Option.none` models the ValueError Python raises on an
unbalanced brace; templates with `{{`/`}}` escapes or empty placeholder names
are outside the grading configurations and also map to `Option.none`. -/
def parseFormat : List Char → Option (List FTok)
  | [] => some []
  | '{' :: rest =>
    let name := rest.takeWhile (fun c => c ≠ '}' && c ≠ '{')
    if name.isEmpty then Option.none else
    match h : rest.dropWhile (fun c => c ≠ '}' && c ≠ '{') with
    | '}' :: rest2 => (parseFormat rest2).map (fun ts => FTok.field ⟨name⟩ :: ts)
    | _ => Option.none
  | '}' :: _ => Option.none
  | c :: rest =>
    (parseFormat (rest.dropWhile (fun d => d ≠ '{' && d ≠ '}'))).map
      (fun ts => FTok.lit ⟨c :: rest.takeWhile (fun d => d ≠ '{' && d ≠ '}')⟩ :: ts)
termination_by cs => cs.length
decreasing_by
  · have h1 := (List.dropWhile_sublist (l := rest) (fun c => c ≠ '}' && c ≠ '{')).length_le
    rw [h] at h1
    simp only [List.length_cons] at h1 ⊢
    omega
  · have := (List.dropWhile_sublist (l := rest) (fun d => d ≠ '{' && d ≠ '}')).length_le
    simp only [List.length_cons]
    omega

/-- The placeholder names of a token list, in order. -/
def fieldNames : List FTok → List String
  | [] => []
  | FTok.field v :: ts => v :: fieldNames ts
  | FTok.lit _ :: ts => fieldNames ts

/-- Case-folded character equality when `ci` (re.IGNORECASE) is set. -/
def charFoldEq (ci : Bool) (a b : Char) : Bool :=
  if ci then a.toLower == b.toLower else a == b

/-- Match a literal token at the head of the text; returns the remaining text. -/
def litPrefixMatch (ci : Bool) : List Char → List Char → Option (List Char)
  | [], cs => some cs
  | l :: ls, c :: cs => if charFoldEq ci l c then litPrefixMatch ci ls cs else Option.none
  | _ :: _, [] => Option.none

mutual
/-- Backtracking matcher for the regex `_validate_format_output` builds:
a concatenation of literals and greedy `(?P<name>.+)` groups (re.DOTALL is
set, so `.` also matches newlines), closed by `\s*$`.  Greedy groups try the
longest capture first, exactly as Python's backtracking engine does for this
pattern class.  Returns the captured groups in template order. -/
def matchTokens (ci : Bool) : List FTok → List Char → Option (List (String × String))
  | [], rest => if rest.all isSpaceChar then some [] else Option.none
  | FTok.lit s :: ts, cs =>
    match litPrefixMatch ci s.toList cs with
    | some rest => matchTokens ci ts rest
    | Option.none => Option.none
  | FTok.field v :: ts, cs => matchFieldFrom ci v ts cs cs.length
termination_by ts _ => (ts.length, 0, 0)

/-- Try capture lengths `k, k-1, …, 1` for one greedy group. -/
def matchFieldFrom (ci : Bool) (v : String) (ts : List FTok) (cs : List Char) :
    Nat → Option (List (String × String))
  | 0 => Option.none
  | k + 1 =>
    match matchTokens ci ts (cs.drop (k + 1)) with
    | some m => some ((v, ⟨cs.take (k + 1)⟩) :: m)
    | Option.none => matchFieldFrom ci v ts cs k
termination_by k => (ts.length, 1, k)
end

/-- The per-expected-variable loop of `_validate_format_output`: look the
variable up among the captured groups (`groupdict().get(var, None)`), then
compare. -/
def compare_extracted_loop (tol : Option Rat) (groups : List (String × String)) :
    List (String × Value) → Except VErr Unit
  | [] => .ok ()
  | (var, ev) :: rest =>
    match (groups.find? (fun g => g.1 == var)).map Prod.snd with
    | Option.none => .error (.assert s!"Variable {var} not found in output.")
    | some av =>
      (compare_extracted_values var ev av tol).bind
        (fun _ => compare_extracted_loop tol groups rest)

/-- `TestValidator._validate_format_output`: build the matching pattern from
the template (duplicate placeholder names make `re.compile` raise `re.error`,
which propagates), match it against the whitespace-normalized output
(case-insensitively unless `case_sensitive`), and compare each expected value
against its captured group. -/
def validate_format_output (test : Test) (test_output : String) (case_sensitive : Bool) :
    Except VErr Unit :=
  match test.format with
  | Option.none => .error (.other ⟨"KeyError", "format"⟩)
  | some fmt =>
    match parseFormat fmt.toList with
    | Option.none => .error (.other ⟨"ValueError", "bad format string"⟩)
    | some toks =>
      if (fieldNames toks).Nodup then
        match matchTokens (!case_sensitive) toks (normalize_whitespace test_output).toList with
        | Option.none =>
          let cs_hint := if case_sensitive then "(case-sensitive)" else "(case-insensitive)"
          .error (.assert s!"Output did not match expected format.\nExpected format {cs_hint}: {fmt}\nActual: {test_output}")
        | some groups =>
          match test.expected with
          | some (.dict fs) => compare_extracted_loop test.tol groups fs
          | Option.none => compare_extracted_loop test.tol groups []
          | some _ => .error (.other ⟨"AttributeError", "'expected' value has no attribute 'items'"⟩)
      else .error (.other ⟨"re.error", "redefinition of group name"⟩)

/-- The pairwise loop of `_validate_list_output` over
`zip(test["expected"], test_output_list)`: each expected element must be a
string (anything else fails its `.strip()` with AttributeError), both sides
are whitespace-normalized, and compared case-folded unless `case_sensitive`. -/
def validate_list_output_pairs (case_sensitive : Bool) :
    List (Value × String) → Except VErr Unit
  | [] => .ok ()
  | (expected, actual) :: rest =>
    match expected with
    | .str es =>
      let na := normalize_whitespace actual
      let ne := normalize_whitespace es
      if case_sensitive then
        if na ≠ ne then
          .error (.assert s!"test for output expected {es}, got {actual} (case-sensitive)")
        else validate_list_output_pairs case_sensitive rest
      else
        if pyLower na ≠ pyLower ne then
          .error (.assert s!"test for output expected {es}, got {actual} (case-insensitive)")
        else validate_list_output_pairs case_sensitive rest
    | _ => .error (.other ⟨"AttributeError", "expected element has no attribute 'strip'"⟩)

/-- `TestValidator._validate_list_output`.  Its `test_output` parameter is the
single string its caller built (the joined recorded messages or the raw
capture), so `test_output if isinstance(test_output, list) else [test_output]`
always takes the else-branch: the actual side is the one-element list
`[test_output]`, and `zip` truncates the pairing to the shorter side. -/
def validate_list_output (expected : List Value) (test_output : String)
    (case_sensitive : Bool) : Except VErr Unit :=
  let test_output_list : List String := [test_output]
  validate_list_output_pairs case_sensitive (expected.zip test_output_list)

/-- `TestValidator._validate_string_output`: the expected value must be a
string (else its `.strip()` raises AttributeError); both sides are
whitespace-normalized and compared case-folded unless `case_sensitive`. -/
def validate_string_output (expected : Value) (test_output : String)
    (case_sensitive : Bool) : Except VErr Unit :=
  match expected with
  | .str es =>
    let no := normalize_whitespace test_output
    let ne := normalize_whitespace es
    if case_sensitive then
      if no ≠ ne then
        .error (.assert s!"test for output expected {es}, got {test_output} (case-sensitive)")
      else .ok ()
    else
      if pyLower no ≠ pyLower ne then
        .error (.assert s!"test for output expected {es}, got {test_output} (case-insensitive)")
      else .ok ()
  | _ => .error (.other ⟨"AttributeError", "expected value has no attribute 'strip'"⟩)

/-- `TestValidator.validate_output_test`: the comparison text is the joined
recorded print messages when any were recorded, else the raw captured stream;
then format mode, list mode or single-string mode, chosen in that order. -/
def validate_output_test (test : Test) (printed_outputs : List String)
    (cell_output : String) : Except VErr Unit :=
  let test_output := if printed_outputs ≠ [] then String.intercalate "\n" printed_outputs
                     else cell_output
  let case_sensitive := test.case_sensitive.getD false
  if test.format.isSome then
    validate_format_output test test_output case_sensitive
  else
    match test.expected with
    | some (.list xs) => validate_list_output xs test_output case_sensitive
    | some e => validate_string_output e test_output case_sensitive
    | Option.none => .error (.other ⟨"KeyError", "expected"⟩)

/-- `TestRunner.run_test`: dispatch on `test.get("type", "unknown")`; an
unknown type raises ValueError, which nothing at the test boundary catches. -/
def run_test (test : Test) (ns : List (String × Value)) (printed_outputs : List String)
    (cell_output : String) : Except VErr Unit :=
  let t := test.type.getD "unknown"
  if t = "variable" then validate_variable_test test ns
  else if t = "output" then validate_output_test test printed_outputs cell_output
  else .error (.other ⟨"ValueError", s!"Unknown test type: {t}"⟩)

/-! ## `core/mock_system.py` — the Mock I/O Layer -/

/-- The result of one `spy_print` call: the message recorded into
`printed_outputs` and the text forwarded to the redirected stdout. -/
structure SpyPrintEffect where
  recorded : String
  forwarded : String
  deriving Repr, DecidableEq

/-- `if message.endswith('\n'): message = message[:-1]` — strip exactly one
trailing newline when present. -/
def stripTrailingNewline (s : String) : String :=
  if s.toList.getLast? = some '\n' then ⟨s.toList.dropLast⟩ else s

/-- `IOSpy.create_spy_print`'s spy, with the arguments modelled by their
`str()` renderings: reconstruct the message the original print would emit
(joining the arguments with `sep` and appending `end`), strip exactly one
trailing newline when present, and record it; then forward the arguments
through the original print with *no* keyword arguments
(`self._original_print(*args)`), so the forwarded text always uses the default
separator and terminator. -/
def spy_print (args : List String) (sep : String := " ") (endStr : String := "\n") :
    SpyPrintEffect :=
  let message := String.intercalate sep args ++ endStr
  { recorded := stripTrailingNewline message,
    forwarded := String.intercalate " " args ++ "\n" }

/-- The pieces of mutable state the input spies touch: the list iterator's
position, the recorded prompts, and the prompt text echoed to stdout. -/
structure SpyState where
  ix : Nat := 0
  prompts_used : List String := []
  echoed : String := ""
  deriving Repr, DecidableEq

/-- `IOSpy._create_list_input_spy`'s spy: record the prompt, echo it with
`end=""`, and return `str(next(iterator))` — or `""` once the sequence is
exhausted (the StopIteration soft-fail). -/
def spy_input_from_list (input_list : List Value) (prompt : String) (st : SpyState) :
    String × SpyState :=
  match input_list.get? st.ix with
  | some v =>
    (pyStr v, { ix := st.ix + 1, prompts_used := st.prompts_used ++ [prompt],
                echoed := st.echoed ++ prompt })
  | Option.none =>
    ("", { ix := st.ix, prompts_used := st.prompts_used ++ [prompt],
           echoed := st.echoed ++ prompt })

/-- `IOSpy._create_single_input_spy`'s spy: record the prompt, echo it, and
return `str(input_value)` on every call. -/
def spy_input_single (input_value : Value) (prompt : String) (st : SpyState) :
    String × SpyState :=
  let st1 := { st with prompts_used := st.prompts_used ++ [prompt],
                       echoed := st.echoed ++ prompt }
  (pyStr input_value, st1)

/-- A sequence of input requests against the list-driven spy, threading its
state; returns the values handed back to the fragment and the final state. -/
def run_input_calls (input_list : List Value) :
    List String → SpyState → List String × SpyState
  | [], st => ([], st)
  | p :: ps, st =>
    let r := spy_input_from_list input_list p st
    let rest := run_input_calls input_list ps r.2
    (r.1 :: rest.1, rest.2)

/-! ## `core/notebook_grader.py` — the Problem/Test Orchestrator -/

/-- One notebook cell as `nbformat` presents it: a cell-type tag and the
source text. -/
structure NbCell where
  cell_type : String
  source : String
  deriving Repr, DecidableEq

/-- One problem's configuration dict.  `tests` models the required
`problem["tests"]` key; the `Option` fields model keys read with `.get`,
except `next_code_cell`, which `_grade_all_problems` indexes directly
(KeyError when absent) while `_validate_cell_count` defaults it to 0. -/
structure Problem where
  pts : Option Rat := Option.none
  tests : List Test := []
  line_offset : Option Nat := Option.none
  next_code_cell : Option Nat := Option.none
  prefix_code : Option PrefixCode := Option.none

/-- A problem-result dict (`_create_problem_result`, plus the extra fields of
the synthetic cell-count-mismatch entry).  `cell_index = Option.none` stands
for the mismatch entry's `'ALL'`. -/
structure ProblemResult where
  cell_index : Option Nat
  passed : Nat
  total : Nat
  score : Rat
  pts : Rat
  failed_tests : List String
  safety_violations : Nat := 0
  timeout_violations : Nat := 0
  cell_mismatch : Bool := false
  expected_cells : Nat := 0
  actual_cells : Nat := 0
  deriving Repr, DecidableEq

/-- `sum(p.get('next_code_cell', 0) for p in problems)`. -/
def expected_code_cells (problems : List Problem) : Nat :=
  (problems.map (fun p => p.next_code_cell.getD 0)).sum

/-- `sum(1 for cell in nb.cells if cell.cell_type == 'code')`. -/
def countCodeCells (cells : List NbCell) : Nat :=
  (cells.filter (fun c => c.cell_type == "code")).length

/-- `sum(1 for cell in nb.cells if cell.cell_type == 'code' and cell.source.strip())`. -/
def countNonEmptyCodeCells (cells : List NbCell) : Nat :=
  (cells.filter (fun c => c.cell_type == "code" && pyStrip c.source != "")).length

/-- `NotebookGrader._validate_cell_count`: compare the configured advance sum
first with the count of *all* code cells; on disagreement, proceed anyway when
the count of *non-empty* code cells matches, else return the one synthetic
mismatch entry (carrying the all-code-cells count as `actual`). -/
def validate_cell_count (problems : List Problem) (cells : List NbCell) :
    Option (List ProblemResult) :=
  let expected := expected_code_cells problems
  let actual := countCodeCells cells
  if actual ≠ expected then
    if countNonEmptyCodeCells cells = expected then Option.none
    else some [{ cell_index := Option.none, passed := 0, total := 1, score := 0, pts := 0,
                 failed_tests := [s!"Cell count mismatch: Expected {expected} code cells, but found {actual}"],
                 cell_mismatch := true, expected_cells := expected, actual_cells := actual }]
  else Option.none

/-- `NotebookGrader._get_code_cell_by_index`: the `target_index`-th (1-based)
non-empty code cell; IndexError when there is none. -/
def get_code_cell_by_index (cells : List NbCell) (target_index : Nat) : Except PyExc NbCell :=
  let nonEmpty := cells.filter (fun c => c.cell_type == "code" && pyStrip c.source != "")
  match target_index with
  | 0 => .error ⟨"IndexError", s!"Code cell number {target_index} not found."⟩
  | t + 1 =>
    match nonEmpty.get? t with
    | some c => .ok c
    | Option.none => .error ⟨"IndexError", s!"Code cell number {target_index} not found."⟩

/-- The seeding loop of `NotebookGrader._create_test_namespace`: each
variable's value is complex-converted (which can raise TypeError) and bound.
The `val.copy()` taken for list values is invisible at this pure-value level;
its aliasing consequences are analysed by the heap model below. -/
def create_test_namespace_loop : List (String × Value) → Except PyExc (List (String × Value))
  | [] => .ok []
  | (k, v) :: rest => do
    let v' ← convert_complex_if_needed v
    let tail ← create_test_namespace_loop rest
    .ok ((k, v') :: tail)

/-- `NotebookGrader._create_test_namespace`. -/
def create_test_namespace (test : Test) : Except PyExc (List (String × Value)) :=
  create_test_namespace_loop test.vars

/-- The lines a `prefix_code` entry contributes (`_add_prefix_code`). -/
def prefixLines : Option PrefixCode → List String
  | Option.none => []
  | some (.one s) => [s]
  | some (.many ls) => ls

/-- `NotebookGrader._add_prefix_code`: problem-level prefix first, then
test-level, joined with newlines and prepended. -/
def add_prefix_code (code_to_run : String) (test : Test) (problem : Problem) : String :=
  let all_prefix_lines := prefixLines problem.prefix_code ++ prefixLines test.prefix_code
  if all_prefix_lines.isEmpty then code_to_run
  else String.intercalate "\n" all_prefix_lines ++ "\n" ++ code_to_run

/-- `NotebookGrader._prepare_code`, parameterised by `sanitize` standing for
`safecode.sanitize_student_code`, which `src/safecode.py` never defines (claim
C1): drop blank lines, apply the line offset, prepend the prefix code, strip
input-reading lines when the test seeds variables but overloads no input, then
sanitize. -/
def prepare_code (sanitize : String → String) (cell : NbCell) (line_offset : Nat)
    (test : Test) (problem : Problem) : String :=
  let cell_lines := pySplitlines cell.source
  let non_blank_lines := cell_lines.filter (fun line => pyStrip line != "")
  let code0 := String.intercalate "\n" (non_blank_lines.drop line_offset)
  let code1 := add_prefix_code code0 test problem
  let code2 := if !test.vars.isEmpty && test.input_overload.isNone
               then remove_input_lines code1 else code1
  sanitize code2

/-- `MockManager.get_input_description`. -/
def get_input_description : InputOverload → String
  | .single v => "all inputs be " ++ pyStrQ true v
  | .seq vs => "all inputs be [" ++ pyStrList vs ++ "]"

/-- The variable-formatting loop of `_build_input_description` (each value is
complex-converted, which can raise TypeError). -/
def input_desc_loop : List (String × Value) → Except PyExc (List String)
  | [] => .ok []
  | (k, v) :: rest => do
    let cv ← convert_complex_if_needed v
    let tail ← input_desc_loop rest
    .ok ((k ++ "=" ++ pyStr cv) :: tail)

/-- `NotebookGrader._build_input_description`. -/
def build_input_description (test : Test) : Except PyExc String := do
  let parts ← input_desc_loop test.vars
  let input_str := String.intercalate ", " parts
  match test.input_overload with
  | Option.none => .ok input_str
  | some ov =>
    let d := get_input_description ov
    .ok (if input_str ≠ "" then input_str ++ ", " ++ d else d)

/-- What one execution of a fragment does, observed at the `run_cell`
boundary: normal completion, the wall-clock timeout, or an exception with its
type name and `str(e)`. -/
inductive RunEvent where
  | completes
  | timeout
  | raises (e : PyExc)
  deriving Repr

/-- The observable behaviour of one fragment run: the `run_cell` event, the
namespace variables afterwards, the messages and output the mock layer and the
stdout capture collected. -/
structure ExecBehavior where
  event : RunEvent := .completes
  ns : List (String × Value) := []
  printed_outputs : List String := []
  output : String := ""

/-- The execution oracle: the behaviour of running a given prepared code
string against a namespace seeded with given variables.  Student code is
arbitrary, so the orchestrator is verified for every oracle. -/
def ExecOracle : Type := String → List (String × Value) → ExecBehavior

/-- What `safecode_unix.run_cell` returns when it does not raise: `None`, or
the `"__DEADLOOP__"` marker it substitutes for its timeout exception. -/
inductive RunCellRet where
  | pynone
  | deadloopMarker
  deriving Repr, DecidableEq

/-- `safecode_unix.run_cell` at the event level: the timeout exception is
swallowed and the marker returned; any other exception is re-raised
unchanged. -/
def run_cell : RunEvent → Except PyExc RunCellRet
  | .completes => .ok .pynone
  | .timeout => .ok .deadloopMarker
  | .raises e => .error e

/-- `NotebookGrader._execute_code`: run the cell with stdout redirected; when
`run_cell` returned the marker, raise `Exception("__DEADLOOP__")`; otherwise
hand back the captured output. -/
def execute_code (beh : ExecBehavior) : Except PyExc String :=
  match run_cell beh.event with
  | .error e => .error e
  | .ok .deadloopMarker => .error ⟨"Exception", "__DEADLOOP__"⟩
  | .ok .pynone => .ok beh.output

/-- What `_run_single_test` hands back for one test. -/
structure TestResult where
  passed : Bool
  failure_message : String
  deriving Repr, DecidableEq

/-- `NotebookGrader._run_single_test`: seed the namespace, prepare the code,
screen it (SafetyBlocked), execute it (Timeout when the caught exception's
`str` equals the marker, RuntimeError otherwise), validate (AssertionFailed).
An `Except.error` models an exception nothing here catches (it aborts
grading); every caught failure becomes an `.ok` result with a message. -/
def run_single_test (sanitize : String → String) (exec : ExecOracle) (test : Test)
    (test_idx : Nat) (problem : Problem) (cell : NbCell) (line_offset : Nat) :
    Except PyExc TestResult := do
  let test_ns ← create_test_namespace test
  let code_to_run := prepare_code sanitize cell line_offset test problem
  let input_str ← build_input_description test
  match is_code_safe code_to_run with
  | (false, reason) =>
    .ok { passed := false,
          failure_message := "Test " ++ toString test_idx ++ " blocked on input ("
            ++ input_str ++ "): " ++ reason }
  | (true, _) =>
    let beh := exec code_to_run test_ns
    match execute_code beh with
    | .error e =>
      if e.msg = "__DEADLOOP__" then
        .ok { passed := false,
              failure_message := "Test " ++ toString test_idx ++ " timeout on input ("
                ++ input_str ++ ")" }
      else
        .ok { passed := false,
              failure_message := "Test " ++ toString test_idx ++ " error (" ++ e.ty
                ++ ") on input (" ++ input_str ++ "): " ++ e.msg }
    | .ok cell_output =>
      match run_test test beh.ns beh.printed_outputs cell_output with
      | .ok () => .ok { passed := true, failure_message := "" }
      | .error (.assert m) =>
        .ok { passed := false,
              failure_message := "Test " ++ toString test_idx ++ " failed on input ("
                ++ input_str ++ "): " ++ m }
      | .error (.other e) => .error e

/-- The accumulator of `_grade_single_problem`'s test loop. -/
structure TestLoopAcc where
  passed : Nat := 0
  failed_tests : List String := []
  safety_violations : Nat := 0
  timeout_violations : Nat := 0
  test_results : List (String × Nat × String) := []
  deriving Repr, DecidableEq

/-- The per-test loop of `_grade_single_problem` (tests enumerated 1-based):
count passes, collect failure messages, classify `blocked`/`timeout` by
substring of the lower-cased message, and record the per-test entry. -/
def grade_tests_loop (sanitize : String → String) (exec : ExecOracle) (prob_idx : Nat)
    (problem : Problem) (cell : NbCell) (line_offset : Nat) :
    Nat → List Test → Except PyExc TestLoopAcc
  | _, [] => .ok {}
  | test_idx, t :: rest => do
    let r ← run_single_test sanitize exec t test_idx problem cell line_offset
    let acc ← grade_tests_loop sanitize exec prob_idx problem cell line_offset (test_idx + 1) rest
    let low := pyLower r.failure_message
    .ok { passed := (if r.passed then 1 else 0) + acc.passed,
          failed_tests := (if r.passed then [] else [r.failure_message]) ++ acc.failed_tests,
          safety_violations :=
            (if !r.passed && strContains low "blocked" then 1 else 0) + acc.safety_violations,
          timeout_violations :=
            (if !r.passed && !strContains low "blocked" && strContains low "timeout" then 1 else 0)
              + acc.timeout_violations,
          test_results :=
            (s!"prob{prob_idx}_test{test_idx}", (if r.passed then 1 else 0), r.failure_message)
              :: acc.test_results }

/-- `NotebookGrader._create_problem_result`. -/
def create_problem_result (cell_index : Option Nat) (passed total : Nat) (score pts : Rat)
    (failed_tests : List String) (safety_violations timeout_violations : Nat) : ProblemResult :=
  { cell_index := cell_index, passed := passed, total := total, score := score, pts := pts,
    failed_tests := failed_tests, safety_violations := safety_violations,
    timeout_violations := timeout_violations }

/-- What `_grade_single_problem` hands back. -/
structure ProblemGrade where
  result : ProblemResult
  score : Rat
  max_score : Rat
  test_results : List (String × Nat × String)
  deriving Repr, DecidableEq

/-- `NotebookGrader._grade_single_problem`: a missing target cell (IndexError)
is caught and scored zero; otherwise run every test and score
`passed / total * pts` (0 with no tests). -/
def grade_single_problem (sanitize : String → String) (exec : ExecOracle) (problem : Problem)
    (prob_idx : Nat) (cell_index : Nat) (cells : List NbCell) : Except PyExc ProblemGrade :=
  let pts := problem.pts.getD 1
  let tests := problem.tests
  let line_offset := problem.line_offset.getD 0
  match get_code_cell_by_index cells cell_index with
  | .error e =>
    .ok { result := create_problem_result (some cell_index) 0 tests.length 0 pts [e.msg] 0 0,
          score := 0, max_score := pts, test_results := [] }
  | .ok cell => do
    let acc ← grade_tests_loop sanitize exec prob_idx problem cell line_offset 1 tests
    let score := if tests.isEmpty then 0 else (acc.passed : Rat) / (tests.length : Rat) * pts
    .ok { result := create_problem_result (some cell_index) acc.passed tests.length score pts
            acc.failed_tests acc.safety_violations acc.timeout_violations,
          score := score, max_score := pts, test_results := acc.test_results }

/-- What `_grade_all_problems` hands back. -/
structure GradeAll where
  results : List ProblemResult
  total_score : Rat
  max_score : Rat
  test_results : List (String × Nat × String)
  deriving Repr, DecidableEq

/-- The problem loop of `_grade_all_problems` (problems enumerated 1-based,
the cell pointer advanced by each problem's required `next_code_cell`). -/
def grade_problems_loop (sanitize : String → String) (exec : ExecOracle) (cells : List NbCell) :
    Nat → Nat → List Problem → Except PyExc GradeAll
  | _, _, [] => .ok ⟨[], 0, 0, []⟩
  | prob_idx, current_cell, p :: rest => do
    let ncc ← (match p.next_code_cell with
               | some n => Except.ok n
               | Option.none => Except.error (⟨"KeyError", "next_code_cell"⟩ : PyExc))
    let idx := current_cell + ncc
    let g ← grade_single_problem sanitize exec p prob_idx idx cells
    let tail ← grade_problems_loop sanitize exec cells (prob_idx + 1) idx rest
    .ok ⟨g.result :: tail.results, g.score + tail.total_score,
         g.max_score + tail.max_score, g.test_results ++ tail.test_results⟩

/-- `NotebookGrader._grade_all_problems`. -/
def grade_all_problems (sanitize : String → String) (exec : ExecOracle)
    (problems : List Problem) (cells : List NbCell) : Except PyExc GradeAll :=
  grade_problems_loop sanitize exec cells 1 0 problems

/-- The three shapes `NotebookGrader.grade_notebook` returns: the max-score
short-circuit (no notebook), the cell-count-mismatch abort, or the full grade. -/
inductive GradeOutcome where
  | maxOnly (max_score : Rat)
  | mismatch (results : List ProblemResult)
  | graded (g : GradeAll)

/-- `NotebookGrader.grade_notebook`. -/
def grade_notebook (sanitize : String → String) (exec : ExecOracle)
    (problems : List Problem) (nb : Option (List NbCell)) : Except PyExc GradeOutcome :=
  match nb with
  | Option.none => .ok (.maxOnly ((problems.map (fun p => p.pts.getD 1)).sum))
  | some cells =>
    match validate_cell_count problems cells with
    | some mm => .ok (.mismatch mm)
    | Option.none => (grade_all_problems sanitize exec problems cells).map .graded

/-! ## A heap model of namespace seeding (claim C8)

`_create_test_namespace` copies list-valued variables with `val.copy()`.  To
reason about the aliasing that copy leaves behind, Python lists are modelled
as heap objects: a `PVal` is an immutable scalar or a reference to a heap cell
holding a list's element array.  Scalars are modelled by integers — immutable
values have no observable identity. -/

/-- A Python value at the aliasing level: an immutable scalar or a reference
to a heap-allocated list object. -/
inductive PVal where
  | prim (n : Int)
  | ref (id : Nat)
  deriving Repr, DecidableEq

/-- The heap: object `i`'s element array is `objs[i]`. -/
structure Heap where
  objs : List (List PVal)
  deriving Repr, DecidableEq

/-- Allocate a new list object; returns the new heap and the object's id. -/
def Heap.alloc (h : Heap) (elems : List PVal) : Heap × Nat :=
  ({ objs := h.objs ++ [elems] }, h.objs.length)

/-- `val.copy()` on list object `i`: a NEW object whose element array is the
same — every element, including a reference to a nested list, is shared. -/
def listCopy (h : Heap) (i : Nat) : Heap × Nat :=
  h.alloc (h.objs.getD i [])

/-- `lst[idx] = w` on object `i`. -/
def writeAt (h : Heap) (i idx : Nat) (w : PVal) : Heap :=
  { objs := h.objs.set i ((h.objs.getD i []).set idx w) }

/-- The seeding step of `_create_test_namespace` at the heap level: a
list-valued variable (`ref`) is bound to a `copy()`; anything else is bound
as it is. -/
def seedVar (h : Heap) (v : PVal) : Heap × PVal :=
  match v with
  | .ref i => ((listCopy h i).1, .ref (listCopy h i).2)
  | p => (h, p)

/-- The scalar observed by reading a value along an index path (what an
expectation comparison of a nested element sees). -/
def readIntAt (h : Heap) (v : PVal) : List Nat → Option Int
  | [] =>
    match v with
    | .prim n => some n
    | .ref _ => Option.none
  | i :: rest =>
    match v with
    | .ref id =>
      match (h.objs.getD id []).get? i with
      | some w => readIntAt h w rest
      | Option.none => Option.none
    | .prim _ => Option.none

/-- A value's references stay below `n`. -/
def pvalOk (n : Nat) : PVal → Bool
  | .prim _ => true
  | .ref k => decide (k < n)

/-- Heap well-formedness: every element of every object refers below the
heap's size (no dangling references — what Python allocation guarantees). -/
def Heap.wfB (h : Heap) : Bool :=
  h.objs.all (fun o => o.all (pvalOk h.objs.length))

/-! ## Well-formed test configurations (claim C4)

The orchestrator catches exactly AssertionError at the validation boundary
and IndexError at the problem boundary; a malformed configuration (an unknown
test type, a missing `expected` key, a malformed complex table, a broken
format template…) raises an exception nothing catches.  `wellFormedTest`
delimits the configurations the spec calls well-formed. -/

/-- Whether a configured value survives `_convert_complex_if_needed`. -/
def convertOk (v : Value) : Bool := (convert_complex_if_needed v).isOk

/-- A test case the grading pipeline can process without an uncaught
exception: a known type; seeded values that complex-convert; for a
variable test an `expected` table whose values complex-convert; for an output
test a plain format template with distinct placeholders and a table (or
nothing) for `expected`, or an `expected` list of strings, or an `expected`
string. -/
def wellFormedTest (t : Test) : Bool :=
  t.vars.all (fun kv => convertOk kv.2) &&
  ((decide (t.type = some "variable") &&
    (match t.expected with
     | some (.dict fs) => fs.all (fun kv => convertOk kv.2)
     | _ => false)) ||
   (decide (t.type = some "output") &&
    (match t.format with
     | some fmt =>
       (match parseFormat fmt.toList with
        | some toks =>
          decide (fieldNames toks).Nodup &&
          (match t.expected with
           | some (.dict _) => true
           | Option.none => true
           | _ => false)
        | Option.none => false)
     | Option.none =>
       (match t.expected with
        | some (.list xs) =>
          xs.all (fun x => match x with | .str _ => true | _ => false)
        | some (.str _) => true
        | _ => false))))

/-- A problem the grading pipeline can process: `next_code_cell` present and
every test well-formed. -/
def wellFormedProblem (p : Problem) : Bool :=
  p.next_code_cell.isSome && p.tests.all wellFormedTest

/-- A configuration the grading pipeline can process. -/
def wellFormedProblems (problems : List Problem) : Bool :=
  problems.all wellFormedProblem

/-! ## Claim-side definitions and concrete inputs -/

/-- Modelled from the spec: claim C5's escape clause, "trimming a single
trailing empty code cell" — the notebook with its last cell removed when that
cell is an empty code cell. -/
def trimTrailingEmptyCell (cells : List NbCell) : List NbCell :=
  match cells.getLast? with
  | some c =>
    if c.cell_type == "code" && pyStrip c.source == "" then cells.dropLast else cells
  | Option.none => cells

/-- The normalized text comparison list mode applies to one expected/actual
pair: whitespace-normalize both sides, and case-fold unless `cs`. -/
def normEqB (cs : Bool) (es act : String) : Bool :=
  if cs then normalize_whitespace act == normalize_whitespace es
  else pyLower (normalize_whitespace act) == pyLower (normalize_whitespace es)

/-- Modelled from the spec: claim C7's reading of list mode — every index `i`
of the expected sequence has an actual segment at the same index, and the pair
matches under the normalized comparison. -/
def claimPairwiseAllB (expected : List Value) (segments : List String) (cs : Bool) : Bool :=
  (List.range expected.length).all (fun i =>
    match segments.get? i, expected.get? i with
    | some seg, some (.str es) => normEqB cs es seg
    | _, _ => false)

/-- The comparison text `validate_output_test` selects (source lines 33–37):
the joined recorded messages when any exist, else the raw capture. -/
def outputComparisonText (printed_outputs : List String) (cell_output : String) : String :=
  if printed_outputs ≠ [] then String.intercalate "\n" printed_outputs else cell_output

/-- Claim C7's counterexample test: output kind, expected a two-string list. -/
def c7Test : Test :=
  { type := some "output", expected := some (.list [.str "a", .str "ZZZ"]) }

/-- Claim C7's witness test: output kind, a one-string expected list. -/
def c7WitnessTest : Test :=
  { type := some "output", expected := some (.list [.str "a b"]) }

/-- Claim C5's counterexample configuration: one problem expecting 2 cells. -/
def c5Problems : List Problem := [{ next_code_cell := some 2 }]

/-- Claim C5's counterexample notebook: one non-empty and one empty code cell. -/
def c5Cells : List NbCell := [⟨"code", "x = 1"⟩, ⟨"code", ""⟩]

/-- Claim C8's counterexample heap: object 0 is the inner list `[1]`, object 1
the outer list `[[1]]`; the configured variable value is `.ref 1`. -/
def c8Heap : Heap := ⟨[[.prim 1], [.ref 0]]⟩

/-- Claim C6's counterexample test: variable kind with an empty expectation
table (so validation itself cannot fail). -/
def c6Test : Test := { type := some "variable", expected := some (.dict []) }

/-- Claim C6's counterexample oracle: the fragment raises
`ValueError("__DEADLOOP__")` — an exception, not a timeout. -/
def c6Oracle : ExecOracle := fun _ _ => { event := .raises ⟨"ValueError", "__DEADLOOP__"⟩ }

/-- Claim C6's witness oracle: the fragment raises `TypeError("boom")`. -/
def c6WitnessOracle : ExecOracle := fun _ _ => { event := .raises ⟨"TypeError", "boom"⟩ }

/-- A trivial notebook cell used by concrete orchestrator runs. -/
def plainCell : NbCell := ⟨"code", "x = 1"⟩

/-- Claim C4's witness configuration: one problem, one passing variable test
and one failing variable test. -/
def c4Problems : List Problem :=
  [{ next_code_cell := some 1,
     tests := [{ type := some "variable", expected := some (.dict [("x", .int 5)]) },
               { type := some "variable", expected := some (.dict [("x", .int 7)]) }] }]

/-- Claim C4's witness notebook. -/
def c4Cells : List NbCell := [⟨"code", "x = 5"⟩]

/-- Claim C4's witness oracle: every run ends with `x = 5` bound. -/
def c4Oracle : ExecOracle := fun _ _ => { ns := [("x", .int 5)] }

deriving instance DecidableEq for Except

/-! # Theorems -/

/-- **C1** (confirmed).  The refactored grading core cannot load:
`core/notebook_grader.py` line 23 requests the name `sanitize_student_code`
from `safecode`, but `safecode.py` binds no such name (it defines only
`run_cell`, `is_code_safe` and `remove_input_lines` beyond its imports and
module-level assignments), so loading the `NotebookGrader` module fails with
an import error before any test case can execute — which is why
`prepare_code`, the embedding of the `_prepare_code` that would call the
missing function on every test's assembled code, takes it as a parameter. -/
theorem notebook_grader_cannot_load :
    notebook_grader_import_ok = false ∧
    "sanitize_student_code" ∈ notebook_grader_safecode_imports ∧
    "sanitize_student_code" ∉ safecode_module_names := by decide

/-- **C5** (counterexample).  A notebook whose all-code-cell count equals the
configured sum while its non-empty-code-cell count does not: the claim says
grading aborts whenever the non-empty count disagrees with the configured sum
and no single-trailing-empty-cell trim reconciles them (trimming the empty
trailing cell here leaves both counts at 1 against an expected 2), yet
`_validate_cell_count` proceeds, because it compares the configured sum with
the count of ALL code cells first. -/
theorem cell_count_claim_cex :
    countNonEmptyCodeCells c5Cells ≠ expected_code_cells c5Problems ∧
    countNonEmptyCodeCells (trimTrailingEmptyCell c5Cells) ≠ expected_code_cells c5Problems ∧
    countCodeCells (trimTrailingEmptyCell c5Cells) ≠ expected_code_cells c5Problems ∧
    validate_cell_count c5Problems c5Cells = Option.none := by decide

/-- **C8** (counterexample).  Seeding the configured value `[[1]]` (`.ref 1`,
whose single element is the inner list object 0) shallow-copies only the outer
list: the copy (object 2) shares the inner object.  A fragment's nested
mutation `x[0][0] = 99` through the seeded value — `x[0]` dereferences to
object 0 — changes what the ORIGINAL configured value observes at path
`[0,0]` from `1` to `99`, so a later test run of the same configuration sees
the mutated seed, contradicting the claimed deep copy. -/
theorem seeded_list_nested_mutation_cex :
    seedVar c8Heap (.ref 1) = (⟨[[.prim 1], [.ref 0], [.ref 0]]⟩, .ref 2) ∧
    readIntAt c8Heap (.ref 1) [0, 0] = some 1 ∧
    readIntAt (writeAt ⟨[[.prim 1], [.ref 0], [.ref 0]]⟩ 0 0 (.prim 99)) (.ref 2) [0, 0]
      = some 99 ∧
    readIntAt (writeAt ⟨[[.prim 1], [.ref 0], [.ref 0]]⟩ 0 0 (.prim 99)) (.ref 1) [0, 0]
      = some 99 := by decide

/-- **C9** (counterexample).  `print("a", "b", sep="-")` would really emit
`"a-b\n"`, and the spy records `"a-b"`; but the spy forwards the arguments
with `self._original_print(*args)` — no keyword arguments — so the stream
capture sees `"a b\n"`, not the real output. -/
theorem spy_print_forwarding_cex :
    (spy_print ["a", "b"] "-").recorded = "a-b" ∧
    (spy_print ["a", "b"] "-").forwarded = "a b\n" ∧
    (spy_print ["a", "b"] "-").forwarded ≠ "a-b" ++ "\n" := by decide

/-- **C7** (counterexample).  An output test expecting the two-string list
`["a", "ZZZ"]` against the single recorded message `"a"`: the comparison text
is the joined string `"a"`, which is wrapped into the one-element segment
list, and `zip` truncates the pairing, so validation passes although
`"ZZZ"` is compared against nothing — the claim's "for every index i
expected[i] is pairwise-compared with actual segment[i]" fails at index 1. -/
theorem list_output_claim_cex :
    validate_output_test c7Test ["a"] "" = Except.ok () ∧
    claimPairwiseAllB [Value.str "a", Value.str "ZZZ"]
      [outputComparisonText ["a"] ""] false = false := by decide

/-- **C6** (counterexample).  A fragment that raises
`ValueError("__DEADLOOP__")` without exceeding any budget: `run_cell`
propagates it unchanged, but `_run_single_test` classifies by
`str(e) == "__DEADLOOP__"`, so the outcome is the Timeout diagnostic — the
exception's category name `ValueError` and its message are not preserved, and
a non-timeout yielded the distinguished Timeout outcome. -/
theorem deadloop_message_collision_cex :
    run_single_test id c6Oracle c6Test 1 {} plainCell 0 =
      Except.ok { passed := false, failure_message := "Test 1 timeout on input ()" } ∧
    strContains "Test 1 timeout on input ()" "ValueError" = false := by decide

/-- A string starting with a nonempty literal is nonempty. -/
lemma append_ne_empty_of_left (s t : String) (h : s.data ≠ []) : s ++ t ≠ "" := by
  intro he
  apply h
  have hd := congrArg String.data he
  rw [String.data_append] at hd
  exact (List.append_eq_nil.mp hd).1

/-- Every orchestrator diagnostic starts with `"Test "`, hence is nonempty. -/
lemma testMsg_ne_empty (x y : String) : "Test " ++ x ++ y ≠ "" := by
  rw [String.append_assoc]
  apply append_ne_empty_of_left
  intro h
  have hd : ("Test " : String).data = ['T', 'e', 's', 't', ' '] := rfl
  rw [hd] at h
  cases h

/-- **C3** (confirmed).  The Safety Gate is a total Lean function of the code
fragment — pure and deterministic by construction, returning a verdict rather
than raising.  It returns a false verdict exactly when the fragment contains,
as a raw substring anywhere, `import M` or `from M import` for a denylisted
module `M`, or a denylisted call-like pattern — and the attached reason names
the offending module or pattern. -/
theorem safety_gate_denylist (code : String) :
    ((is_code_safe code).1 = false ↔
      (∃ imp ∈ banned_imports, hasBannedImport code imp = true) ∨
      (∃ pat ∈ banned_patterns, strContains code pat = true)) ∧
    ((is_code_safe code).1 = false →
      (∃ imp ∈ banned_imports, hasBannedImport code imp = true ∧
        (is_code_safe code).2 = "Banned import detected: " ++ imp) ∨
      (∃ pat ∈ banned_patterns, strContains code pat = true ∧
        (is_code_safe code).2 = "Banned code pattern detected: " ++ pat)) := by
  rcases h1 : banned_imports.find? (fun imp => hasBannedImport code imp) with _ | imp
  · rcases h2 : banned_patterns.find? (fun pat => strContains code pat) with _ | pat
    · refine ⟨?_, ?_⟩ <;> simp only [is_code_safe, h1, h2]
      · constructor
        · intro hf; exact absurd hf (by decide)
        · rintro (⟨imp, hmem, himp⟩ | ⟨pat, hmem, hpat⟩)
          · have := List.find?_eq_none.mp h1 imp hmem
            simp [himp] at this
          · have := List.find?_eq_none.mp h2 pat hmem
            simp [hpat] at this
      · intro hf; exact absurd hf (by decide)
    · have hmem := List.mem_of_find?_eq_some h2
      have hpred := List.find?_some h2
      refine ⟨?_, ?_⟩ <;> simp only [is_code_safe, h1, h2]
      · exact ⟨fun _ => Or.inr ⟨pat, hmem, hpred⟩, fun _ => trivial⟩
      · exact fun _ => Or.inr ⟨pat, hmem, hpred, rfl⟩
  · have hmem := List.mem_of_find?_eq_some h1
    have hpred := List.find?_some h1
    refine ⟨?_, ?_⟩ <;> simp only [is_code_safe, h1]
    · exact ⟨fun _ => Or.inl ⟨imp, hmem, hpred⟩, fun _ => trivial⟩
    · exact fun _ => Or.inl ⟨imp, hmem, hpred, rfl⟩

/-- The square-root-free tolerance test agrees with the complex absolute
value: `complexAbsGtTol z t = false ↔ |z| ≤ t`. -/
lemma complexAbsGtTol_false_iff (z : Rat × Rat) (t : Rat) :
    complexAbsGtTol z t = false ↔
      Complex.abs ⟨(z.1 : ℝ), (z.2 : ℝ)⟩ ≤ (t : ℝ) := by
  unfold complexAbsGtTol complexAbsSq
  rw [Bool.or_eq_false_iff, decide_eq_false_iff_not, decide_eq_false_iff_not,
    Complex.abs_apply, Complex.normSq_mk, Real.sqrt_le_iff, not_lt, not_lt]
  constructor
  · rintro ⟨ht, hle⟩
    refine ⟨by exact_mod_cast ht, ?_⟩
    rw [pow_two]
    exact_mod_cast hle
  · rintro ⟨ht, hle⟩
    refine ⟨by exact_mod_cast ht, ?_⟩
    rw [pow_two] at hle
    exact_mod_cast hle

/-- **C2** (confirmed).  For a variable expectation validated with tolerance
`t` (`validate_variable_test` routes every variable there when the test sets
`tol`): when both expected and actual are numeric — integer, real or complex,
read as complex numbers — validation passes if and only if
`|actual − expected| ≤ t`, so the boundary `|a − e| = t` passes and anything
strictly greater fails; and when either value is non-numeric the validator
fails through its AssertionError channel instead of raising. -/
theorem tolerance_validation_iff (var : String) (expected actual : Value) (t : Rat) :
    (∀ e a, expected.toComplexPair = some e → actual.toComplexPair = some a →
      ((validate_with_tolerance var expected actual t = Except.ok ()) ↔
        Complex.abs ⟨((a.1 - e.1 : Rat) : ℝ), ((a.2 - e.2 : Rat) : ℝ)⟩ ≤ (t : ℝ))) ∧
    ((expected.toComplexPair = Option.none ∨ actual.toComplexPair = Option.none) →
      ∃ m, validate_with_tolerance var expected actual t = Except.error (VErr.assert m)) := by
  constructor
  · intro e a he ha
    simp only [validate_with_tolerance, he, ha]
    rcases hb : complexAbsGtTol (a.1 - e.1, a.2 - e.2) t with _ | _
    · have habs := (complexAbsGtTol_false_iff (a.1 - e.1, a.2 - e.2) t).mp hb
      simp only [hb, Bool.false_eq_true, if_false]
      exact ⟨fun _ => habs, fun _ => trivial⟩
    · simp only [hb, if_true]
      constructor
      · intro hcontra; cases hcontra
      · intro habs
        have := (complexAbsGtTol_false_iff (a.1 - e.1, a.2 - e.2) t).mpr habs
        rw [this] at hb
        cases hb
  · intro hno
    rcases he : expected.toComplexPair with _ | e <;>
      rcases ha : actual.toComplexPair with _ | a <;>
      simp only [validate_with_tolerance, he, ha]
    · exact ⟨_, rfl⟩
    · exact ⟨_, rfl⟩
    · exact ⟨_, rfl⟩
    · rcases hno with h | h
      · rw [he] at h; cases h
      · rw [ha] at h; cases h

/-- Dropping the last element and re-appending the known last element
restores the list. -/
lemma dropLast_append_nl (l : List Char) (h : l.getLast? = some '\n') :
    l.dropLast ++ ['\n'] = l := by
  have hne : l ≠ [] := by intro he; subst he; cases h
  have hlast : l.getLast hne = '\n' := by
    have h2 := List.getLast?_eq_getLast l hne
    rw [h] at h2
    exact (Option.some.inj h2).symm
  rw [← hlast]
  exact List.dropLast_append_getLast hne

/-- Stripping the trailing newline then re-appending it restores the string. -/
lemma stripTrailingNewline_append (s : String) (h : s.toList.getLast? = some '\n') :
    stripTrailingNewline s ++ "\n" = s := by
  unfold stripTrailingNewline
  rw [if_pos h]
  cases s with
  | mk data =>
    have h2 : data.dropLast ++ ['\n'] = data := dropLast_append_nl data h
    exact congrArg String.mk h2

/-- **C9** (corrected, amended claim).  The recorder reconstructs the exact
string the emission would produce — the arguments joined by the separator with
the terminator appended — and strips exactly one trailing newline when
present; `print("Hello", "World")` with defaults records `"Hello World"`.
Amended forwarding clause: the spy forwards the arguments through a plain
print with the DEFAULT separator and terminator (`_original_print(*args)`), so
the stream capture sees the default-formatted rendering, which differs from
the real emission when `sep`/`end` are customized (see the counterexample). -/
theorem spy_print_record_spec (args : List String) (sep endStr : String) :
    (((String.intercalate sep args ++ endStr).toList.getLast? = some '\n') →
      (spy_print args sep endStr).recorded ++ "\n" = String.intercalate sep args ++ endStr) ∧
    (((String.intercalate sep args ++ endStr).toList.getLast? ≠ some '\n') →
      (spy_print args sep endStr).recorded = String.intercalate sep args ++ endStr) ∧
    (spy_print args sep endStr).forwarded = String.intercalate " " args ++ "\n" ∧
    (spy_print ["Hello", "World"] " " "\n").recorded = "Hello World" := by
  refine ⟨?_, ?_, rfl, by decide⟩
  · intro h
    exact stripTrailingNewline_append _ h
  · intro h
    show stripTrailingNewline _ = _
    unfold stripTrailingNewline
    rw [if_neg h]

/-- State-threaded behaviour of the list-driven input spy: prompts are
recorded and echoed in order, and the `j`-th call returns `str` of the
`(ix₀ + j)`-th overload item, or `""` past the end. -/
lemma run_input_calls_spec (vals : List Value) :
    ∀ (ps : List String) (st : SpyState),
      (run_input_calls vals ps st).2.prompts_used = st.prompts_used ++ ps ∧
      (run_input_calls vals ps st).2.echoed = st.echoed ++ ps.foldr (fun a b => a ++ b) "" ∧
      (run_input_calls vals ps st).1.length = ps.length ∧
      (∀ j, (run_input_calls vals ps st).1.get? j =
        if j < ps.length then some (((vals.get? (st.ix + j)).map pyStr).getD "")
        else Option.none) := by
  intro ps
  induction ps with
  | nil =>
    intro st
    refine ⟨by simp [run_input_calls], ?_, rfl, ?_⟩
    · show st.echoed = st.echoed ++ ""
      exact (String.append_empty _).symm
    · intro j; simp [run_input_calls]
  | cons p ps ih =>
    intro st
    rcases hget : vals.get? st.ix with _ | v
    · have hst1 : spy_input_from_list vals p st =
          ("", ⟨st.ix, st.prompts_used ++ [p], st.echoed ++ p⟩) := by
        unfold spy_input_from_list
        rw [hget]
      have hnone : ∀ k, vals.get? (st.ix + k) = Option.none := by
        intro k
        have hlen := List.get?_eq_none.mp hget
        exact List.get?_eq_none.mpr (le_trans hlen (Nat.le_add_right _ _))
      obtain ⟨ihp, ihe, ihl, ihg⟩ := ih ⟨st.ix, st.prompts_used ++ [p], st.echoed ++ p⟩
      refine ⟨?_, ?_, ?_, ?_⟩
      · simp only [run_input_calls, hst1]
        rw [ihp]
        simp
      · simp only [run_input_calls, hst1]
        rw [ihe]
        simp only [List.foldr_cons]
        rw [String.append_assoc]
      · simp only [run_input_calls, hst1, List.length_cons]
        rw [ihl]
      · intro j
        simp only [run_input_calls, hst1]
        cases j with
        | zero =>
          simp [show vals[st.ix]? = Option.none from by
            rw [← List.get?_eq_getElem?]; exact hget]
        | succ k =>
          simp only [List.get?_cons_succ]
          rw [ihg k]
          by_cases hk : k < ps.length
          · rw [if_pos hk, if_pos (by simpa using Nat.succ_lt_succ hk)]
            simp only [hnone]
          · rw [if_neg hk,
              if_neg (by simpa using fun hkk => hk (Nat.lt_of_succ_lt_succ hkk))]
    · have hst1 : spy_input_from_list vals p st =
          (pyStr v, ⟨st.ix + 1, st.prompts_used ++ [p], st.echoed ++ p⟩) := by
        unfold spy_input_from_list
        rw [hget]
      obtain ⟨ihp, ihe, ihl, ihg⟩ := ih ⟨st.ix + 1, st.prompts_used ++ [p], st.echoed ++ p⟩
      refine ⟨?_, ?_, ?_, ?_⟩
      · simp only [run_input_calls, hst1]
        rw [ihp]
        simp
      · simp only [run_input_calls, hst1]
        rw [ihe]
        simp only [List.foldr_cons]
        rw [String.append_assoc]
      · simp only [run_input_calls, hst1, List.length_cons]
        rw [ihl]
      · intro j
        simp only [run_input_calls, hst1]
        cases j with
        | zero =>
          simp [show vals[st.ix]? = some v from by
            rw [← List.get?_eq_getElem?]; exact hget]
        | succ k =>
          simp only [List.get?_cons_succ]
          rw [ihg k]
          have harith : st.ix + 1 + k = st.ix + (k + 1) := by omega
          by_cases hk : k < ps.length
          · rw [if_pos hk, if_pos (by simpa using Nat.succ_lt_succ hk), harith]
          · rw [if_neg hk,
              if_neg (by simpa using fun hkk => hk (Nat.lt_of_succ_lt_succ hkk))]


/-- **C10** (confirmed).  With a sequence input overload, every request
records its prompt, echoes it to the captured stream, and returns the next
item converted by `str` — and once the sequence is exhausted every further
request returns `""` rather than raising; in particular the overload
`[10, 20]` answers `"10"`, `"20"`, then `""`. -/
theorem list_input_overload_spec (vals : List Value) (ps : List String) :
    ((run_input_calls vals ps {}).2.prompts_used = ps) ∧
    ((run_input_calls vals ps {}).2.echoed = ps.foldr (fun a b => a ++ b) "") ∧
    ((run_input_calls vals ps {}).1.length = ps.length) ∧
    (∀ j, j < ps.length →
      (run_input_calls vals ps {}).1.get? j = some (((vals.get? j).map pyStr).getD "")) ∧
    (run_input_calls [Value.int 10, Value.int 20] ["p1", "p2", "p3"] {}).1
      = ["10", "20", ""] := by
  obtain ⟨hp, he, hl, hg⟩ := run_input_calls_spec vals ps {}
  refine ⟨by simpa using hp, by simpa using he, hl, ?_, by decide⟩
  intro j hj
  have := hg j
  rw [if_pos hj] at this
  simpa using this

/-- **C5** (corrected, amended claim).  The configured advance sum is compared
with the count of ALL code cells; grading proceeds exactly when that count or
the count of non-empty code cells equals the sum (so any number of empty code
cells anywhere — not only a single trailing one — is forgiven); otherwise it
aborts with the single synthetic mismatch entry, which carries the expected
sum and the all-code-cells count. -/
theorem cell_count_validation_spec (problems : List Problem) (cells : List NbCell) :
    (validate_cell_count problems cells = Option.none ↔
      (countCodeCells cells = expected_code_cells problems ∨
       countNonEmptyCodeCells cells = expected_code_cells problems)) ∧
    (validate_cell_count problems cells ≠ Option.none →
      validate_cell_count problems cells = some
        [{ cell_index := Option.none, passed := 0, total := 1, score := 0, pts := 0,
           failed_tests := [s!"Cell count mismatch: Expected {expected_code_cells problems} code cells, but found {countCodeCells cells}"],
           safety_violations := 0, timeout_violations := 0,
           cell_mismatch := true, expected_cells := expected_code_cells problems,
           actual_cells := countCodeCells cells }]) := by
  by_cases h1 : countCodeCells cells = expected_code_cells problems
  · constructor
    · simp [validate_cell_count, h1]
    · intro hne
      exact absurd (by simp [validate_cell_count, h1]) hne
  · by_cases h2 : countNonEmptyCodeCells cells = expected_code_cells problems
    · constructor
      · simp [validate_cell_count, h1, h2]
      · intro hne
        exact absurd (by simp [validate_cell_count, h1, h2]) hne
    · constructor
      · simp [validate_cell_count, h1, h2]
      · intro _
        simp [validate_cell_count, h1, h2]

/-- The pairwise list-mode loop succeeds exactly when every zipped pair is a
string expectation matching its actual text under the normalized (and, unless
case-sensitive, case-folded) comparison. -/
lemma validate_list_output_pairs_ok_iff (cs : Bool) (prs : List (Value × String)) :
    validate_list_output_pairs cs prs = Except.ok () ↔
      ∀ pr ∈ prs, ∃ es, pr.1 = Value.str es ∧ normEqB cs es pr.2 = true := by
  induction prs with
  | nil => simp [validate_list_output_pairs]
  | cons pr rest ih =>
    obtain ⟨e, a⟩ := pr
    cases e with
    | str es =>
      cases cs with
      | true =>
        by_cases hne : normalize_whitespace a = normalize_whitespace es
        · rw [show validate_list_output_pairs true ((Value.str es, a) :: rest) =
              validate_list_output_pairs true rest from by
            simp [validate_list_output_pairs, hne]]
          rw [ih]
          constructor
          · intro hrest pr' hpr'
            rcases List.mem_cons.mp hpr' with hh | hh
            · subst hh
              exact ⟨es, rfl, by simp [normEqB, hne]⟩
            · exact hrest pr' hh
          · intro hall pr' hpr'
            exact hall pr' (List.mem_cons_of_mem _ hpr')
        · constructor
          · intro hcontra
            rw [show validate_list_output_pairs true ((Value.str es, a) :: rest) =
                Except.error (.assert
                  s!"test for output expected {es}, got {a} (case-sensitive)") from by
              simp [validate_list_output_pairs, hne]] at hcontra
            cases hcontra
          · intro hall
            obtain ⟨es', he', hn'⟩ := hall (Value.str es, a) (List.mem_cons_self _ _)
            rw [Value.str.injEq] at he'
            subst he'
            simp [normEqB] at hn'
            exact absurd hn' hne
      | false =>
        by_cases hne : pyLower (normalize_whitespace a) = pyLower (normalize_whitespace es)
        · rw [show validate_list_output_pairs false ((Value.str es, a) :: rest) =
              validate_list_output_pairs false rest from by
            simp [validate_list_output_pairs, hne]]
          rw [ih]
          constructor
          · intro hrest pr' hpr'
            rcases List.mem_cons.mp hpr' with hh | hh
            · subst hh
              exact ⟨es, rfl, by simp [normEqB, hne]⟩
            · exact hrest pr' hh
          · intro hall pr' hpr'
            exact hall pr' (List.mem_cons_of_mem _ hpr')
        · constructor
          · intro hcontra
            rw [show validate_list_output_pairs false ((Value.str es, a) :: rest) =
                Except.error (.assert
                  s!"test for output expected {es}, got {a} (case-insensitive)") from by
              simp [validate_list_output_pairs, hne]] at hcontra
            cases hcontra
          · intro hall
            obtain ⟨es', he', hn'⟩ := hall (Value.str es, a) (List.mem_cons_self _ _)
            rw [Value.str.injEq] at he'
            subst he'
            simp [normEqB] at hn'
            exact absurd hn' hne
    | int n =>
      refine ⟨fun hcontra => ?_, fun hall => ?_⟩
      · simp [validate_list_output_pairs] at hcontra
      · obtain ⟨es', he', _⟩ := hall (Value.int n, a) (List.mem_cons_self _ _)
        cases he'
    | real q =>
      refine ⟨fun hcontra => ?_, fun hall => ?_⟩
      · simp [validate_list_output_pairs] at hcontra
      · obtain ⟨es', he', _⟩ := hall (Value.real q, a) (List.mem_cons_self _ _)
        cases he'
    | complex re im =>
      refine ⟨fun hcontra => ?_, fun hall => ?_⟩
      · simp [validate_list_output_pairs] at hcontra
      · obtain ⟨es', he', _⟩ := hall (Value.complex re im, a) (List.mem_cons_self _ _)
        cases he'
    | bool b =>
      refine ⟨fun hcontra => ?_, fun hall => ?_⟩
      · simp [validate_list_output_pairs] at hcontra
      · obtain ⟨es', he', _⟩ := hall (Value.bool b, a) (List.mem_cons_self _ _)
        cases he'
    | list xs =>
      refine ⟨fun hcontra => ?_, fun hall => ?_⟩
      · simp [validate_list_output_pairs] at hcontra
      · obtain ⟨es', he', _⟩ := hall (Value.list xs, a) (List.mem_cons_self _ _)
        cases he'
    | dict fs =>
      refine ⟨fun hcontra => ?_, fun hall => ?_⟩
      · simp [validate_list_output_pairs] at hcontra
      · obtain ⟨es', he', _⟩ := hall (Value.dict fs, a) (List.mem_cons_self _ _)
        cases he'
    | none =>
      refine ⟨fun hcontra => ?_, fun hall => ?_⟩
      · simp [validate_list_output_pairs] at hcontra
      · obtain ⟨es', he', _⟩ := hall (Value.none, a) (List.mem_cons_self _ _)
        cases he'

/-- **C7** (corrected, amended claim).  For an output test whose expected
value is a sequence: the comparison text is the joined recorded messages when
any exist, else the raw capture — and since that text is one string, the
actual side is always the ONE-element segment list, so the pairwise comparison
runs over `zip expected [text]`, truncating at the shorter side: only
`expected[0]` is ever compared (whitespace-normalized and, unless case
sensitivity is on, case-folded), and any further expected elements are
silently ignored. -/
theorem list_output_mode_spec (t : Test) (xs : List Value) (printed : List String)
    (cell_output : String) (hfmt : t.format = Option.none)
    (hexp : t.expected = some (.list xs)) :
    validate_output_test t printed cell_output = Except.ok () ↔
      ∀ pr ∈ xs.zip [outputComparisonText printed cell_output],
        ∃ es, pr.1 = Value.str es ∧
          normEqB (t.case_sensitive.getD false) es pr.2 = true := by
  have hform : t.format.isSome = false := by rw [hfmt]; rfl
  simp only [validate_output_test, hform, Bool.false_eq_true, if_false, hexp]
  rw [show validate_list_output xs
        (if printed ≠ [] then String.intercalate "\n" printed else cell_output)
        (t.case_sensitive.getD false) =
      validate_list_output_pairs (t.case_sensitive.getD false)
        (xs.zip [if printed ≠ [] then String.intercalate "\n" printed else cell_output])
      from rfl]
  rw [validate_list_output_pairs_ok_iff]
  rfl

/-- Witness for the amended C7: a one-element expected list matching the
joined (single) recorded message, whitespace-normalized. -/
theorem list_output_mode_spec_witness :
    validate_output_test c7WitnessTest ["a   b"] "" = Except.ok () := by
  refine (list_output_mode_spec c7WitnessTest [Value.str "a b"] ["a   b"] "" rfl rfl).mpr ?_
  intro pr hpr
  have : pr = (Value.str "a b", outputComparisonText ["a   b"] "") := by
    simpa [List.zip] using hpr
  subst this
  exact ⟨"a b", rfl, by decide⟩

/-- Reading depends only on the heap cells below `n` when two heaps agree
there and every reachable reference stays below `n`. -/
lemma readIntAt_agree (n : Nat) (h h2 : Heap)
    (hagree : ∀ j, j < n → h.objs.get? j = h2.objs.get? j)
    (hclosed : ∀ j, j < n → ∀ e ∈ h.objs.getD j [], pvalOk n e = true) :
    ∀ (path : List Nat) (v : PVal), pvalOk n v = true →
      readIntAt h v path = readIntAt h2 v path := by
  intro path
  induction path with
  | nil => intro v _; cases v <;> rfl
  | cons i rest ih =>
    intro v hv
    cases v with
    | prim m => rfl
    | ref k =>
      have hk : k < n := by simpa [pvalOk] using hv
      have hgetD : h.objs.getD k [] = h2.objs.getD k [] := by
        unfold List.getD
        rw [hagree k hk]
      show (match (h.objs.getD k []).get? i with
            | some w => readIntAt h w rest
            | Option.none => Option.none) =
           (match (h2.objs.getD k []).get? i with
            | some w => readIntAt h2 w rest
            | Option.none => Option.none)
      rw [← hgetD]
      cases he : (h.objs.getD k []).get? i with
      | none => rfl
      | some e =>
        exact ih e (hclosed k hk e (List.get?_mem he))

/-- **C8** (corrected, amended claim).  List-valued entries are SHALLOW-copied
into the namespace: a mutation of the seeded list object itself — assigning
any element of the copy — never changes what the original configured value
observes along any path; mutations of objects nested inside the list are
shared with the original (counterexample). -/
theorem shallow_copy_top_level_isolated (h : Heap) (i idx : Nat) (w : PVal)
    (path : List Nat) (hwf : h.wfB = true) (hi : i < h.objs.length) :
    readIntAt (writeAt (seedVar h (.ref i)).1 h.objs.length idx w) (.ref i) path =
      readIntAt h (.ref i) path := by
  have hseed : (seedVar h (.ref i)).1 = ⟨h.objs ++ [h.objs.getD i []]⟩ := rfl
  rw [hseed]
  refine (readIntAt_agree h.objs.length h
    (writeAt ⟨h.objs ++ [h.objs.getD i []]⟩ h.objs.length idx w) ?_ ?_ path (.ref i)
    (by simp [pvalOk, hi])).symm
  · intro j hj
    show h.objs.get? j = _
    rw [show writeAt ⟨h.objs ++ [h.objs.getD i []]⟩ h.objs.length idx w =
        ⟨(h.objs ++ [h.objs.getD i []]).set h.objs.length
          (((h.objs ++ [h.objs.getD i []]).getD h.objs.length []).set idx w)⟩ from rfl]
    show h.objs.get? j = ((h.objs ++ [h.objs.getD i []]).set h.objs.length _).get? j
    rw [List.get?_set_ne _ _ (by omega), List.get?_append hj]
  · intro j hj e he
    have hobj : h.objs.get? j = some (h.objs.get ⟨j, hj⟩) := List.get?_eq_get hj
    have hgd : h.objs.getD j [] = h.objs.get ⟨j, hj⟩ := by
      unfold List.getD
      rw [hobj]
      rfl
    rw [hgd] at he
    have hmem : h.objs.get ⟨j, hj⟩ ∈ h.objs := List.get_mem _ _ _
    have hall : (h.objs.get ⟨j, hj⟩).all (pvalOk h.objs.length) = true := by
      have hw : h.objs.all (fun o => o.all (pvalOk h.objs.length)) = true := hwf
      exact List.all_eq_true.mp hw _ hmem
    exact List.all_eq_true.mp hall e he

/-- Witness for the amended C8: writing index 0 of the copied outer list does
not change what the original configured value observes at path `[0, 0]`. -/
theorem shallow_copy_top_level_isolated_witness :
    readIntAt (writeAt (seedVar c8Heap (.ref 1)).1 c8Heap.objs.length 0 (.prim 99))
        (.ref 1) [0, 0] =
      readIntAt c8Heap (.ref 1) [0, 0] :=
  shallow_copy_top_level_isolated c8Heap 1 0 (.prim 99) [0, 0] (by decide) (by decide)

/-- A string with a nonempty left append component is nonempty. -/
lemma append_left_ne_empty (s t : String) (h : s ≠ "") : s ++ t ≠ "" := by
  intro he
  apply h
  cases s with
  | mk data =>
    have hd := congrArg String.data he
    rw [String.data_append] at hd
    exact congrArg String.mk (List.append_eq_nil.mp hd).1

/-- A well-converting value yields a converted value. -/
lemma convertOk_ex (v : Value) (h : convertOk v = true) :
    ∃ v', convert_complex_if_needed v = Except.ok v' := by
  cases hc : convert_complex_if_needed v with
  | ok v' => exact ⟨v', rfl⟩
  | error e =>
    unfold convertOk at h
    rw [hc] at h
    cases h

/-- The namespace-seeding loop succeeds when every value converts. -/
lemma create_test_namespace_loop_ok (vs : List (String × Value))
    (h : vs.all (fun kv => convertOk kv.2) = true) :
    ∃ ns, create_test_namespace_loop vs = Except.ok ns := by
  induction vs with
  | nil => exact ⟨[], rfl⟩
  | cons kv rest ih =>
    obtain ⟨k, v⟩ := kv
    rw [List.all_cons, Bool.and_eq_true] at h
    obtain ⟨v', hv⟩ := convertOk_ex v h.1
    obtain ⟨tail, ht⟩ := ih h.2
    refine ⟨(k, v') :: tail, ?_⟩
    simp only [create_test_namespace_loop]
    rw [hv, ht]
    rfl

/-- The input-description loop succeeds when every value converts. -/
lemma input_desc_loop_ok (vs : List (String × Value))
    (h : vs.all (fun kv => convertOk kv.2) = true) :
    ∃ parts, input_desc_loop vs = Except.ok parts := by
  induction vs with
  | nil => exact ⟨[], rfl⟩
  | cons kv rest ih =>
    obtain ⟨k, v⟩ := kv
    rw [List.all_cons, Bool.and_eq_true] at h
    obtain ⟨v', hv⟩ := convertOk_ex v h.1
    obtain ⟨tail, ht⟩ := ih h.2
    refine ⟨(k ++ "=" ++ pyStr v') :: tail, ?_⟩
    simp only [input_desc_loop]
    rw [hv, ht]
    rfl

/-- `build_input_description` succeeds when every seeded value converts. -/
lemma build_input_description_ok (t : Test)
    (h : t.vars.all (fun kv => convertOk kv.2) = true) :
    ∃ s, build_input_description t = Except.ok s := by
  obtain ⟨parts, hp⟩ := input_desc_loop_ok t.vars h
  unfold build_input_description
  rw [hp]
  rcases t.input_overload with _ | ov
  · exact ⟨_, rfl⟩
  · exact ⟨_, rfl⟩

/-- Tolerance validation either passes or raises AssertionError. -/
lemma validate_with_tolerance_shape (var : String) (e a : Value) (t : Rat) :
    validate_with_tolerance var e a t = Except.ok () ∨
    ∃ m, validate_with_tolerance var e a t = Except.error (VErr.assert m) := by
  rcases ha : a.toComplexPair with _ | ap <;> rcases he : e.toComplexPair with _ | ep <;>
    simp only [validate_with_tolerance, ha, he]
  · exact Or.inr ⟨_, rfl⟩
  · exact Or.inr ⟨_, rfl⟩
  · exact Or.inr ⟨_, rfl⟩
  · cases hb : complexAbsGtTol (ap.1 - ep.1, ap.2 - ep.2) t <;> simp [hb]

/-- Exact-match validation either passes or raises AssertionError. -/
lemma validate_exact_match_shape (var : String) (e a : Value) :
    validate_exact_match var e a = Except.ok () ∨
    ∃ m, validate_exact_match var e a = Except.error (VErr.assert m) := by
  unfold validate_exact_match
  cases hp : pyEq a e <;> simp [hp]

/-- Extracted-value comparison either passes or raises AssertionError. -/
lemma compare_extracted_values_shape (var : String) (ev : Value) (av : String)
    (tol : Option Rat) :
    compare_extracted_values var ev av tol = Except.ok () ∨
    ∃ m, compare_extracted_values var ev av tol = Except.error (VErr.assert m) := by
  rcases hev : pyFloatOfValue ev with _ | en <;>
    rcases hav : parsePyFloat av with _ | an <;>
    rcases tol with _ | tv <;>
    simp only [compare_extracted_values, hev, hav] <;>
    split_ifs <;>
    first | exact Or.inl rfl | exact Or.inr ⟨_, rfl⟩

/-- The format-mode comparison loop either passes or raises AssertionError. -/
lemma compare_extracted_loop_shape (tol : Option Rat) (groups : List (String × String)) :
    ∀ fs, compare_extracted_loop tol groups fs = Except.ok () ∨
      ∃ m, compare_extracted_loop tol groups fs = Except.error (VErr.assert m) := by
  intro fs
  induction fs with
  | nil => exact Or.inl rfl
  | cons kv rest ih =>
    obtain ⟨var, ev⟩ := kv
    simp only [compare_extracted_loop]
    rcases hf : (groups.find? (fun g => g.1 == var)).map Prod.snd with _ | av <;>
      simp only [hf]
    · exact Or.inr ⟨_, rfl⟩
    · rcases compare_extracted_values_shape var ev av tol with hok | ⟨m, herr⟩
      · rw [hok]
        exact ih
      · rw [herr]
        exact Or.inr ⟨m, rfl⟩

/-- The variable-validation loop either passes or raises AssertionError when
all expected values convert. -/
lemma validate_variable_loop_shape (tol : Option Rat) (ns : List (String × Value)) :
    ∀ fs, fs.all (fun kv => convertOk kv.2) = true →
      validate_variable_loop tol ns fs = Except.ok () ∨
      ∃ m, validate_variable_loop tol ns fs = Except.error (VErr.assert m) := by
  intro fs
  induction fs with
  | nil => exact fun _ => Or.inl rfl
  | cons kv rest ih =>
    intro h
    obtain ⟨var, ev⟩ := kv
    rw [List.all_cons, Bool.and_eq_true] at h
    obtain ⟨ev', hev⟩ := convertOk_ex ev h.1
    rcases tol with _ | tv <;> simp only [validate_variable_loop, hev]
    · rcases validate_exact_match_shape var ev' (nsGet ns var) with hok | ⟨m, herr⟩
      · rw [hok]
        exact ih h.2
      · rw [herr]
        exact Or.inr ⟨m, rfl⟩
    · rcases validate_with_tolerance_shape var ev' (nsGet ns var) tv with hok | ⟨m, herr⟩
      · rw [hok]
        exact ih h.2
      · rw [herr]
        exact Or.inr ⟨m, rfl⟩

/-- The list-mode pair loop either passes or raises AssertionError when every
expected element is a string. -/
lemma validate_list_output_pairs_shape (cs : Bool) :
    ∀ prs, (∀ pr ∈ prs, ∃ s, (pr : Value × String).1 = Value.str s) →
      validate_list_output_pairs cs prs = Except.ok () ∨
      ∃ m, validate_list_output_pairs cs prs = Except.error (VErr.assert m) := by
  intro prs
  induction prs with
  | nil => exact fun _ => Or.inl rfl
  | cons pr rest ih =>
    intro h
    obtain ⟨e, a⟩ := pr
    obtain ⟨s, hs⟩ := h (e, a) (List.mem_cons_self _ _)
    subst hs
    simp only [validate_list_output_pairs]
    have hrest := ih (fun pr' hpr' => h pr' (List.mem_cons_of_mem _ hpr'))
    cases cs <;> split_ifs <;> first | exact Or.inr ⟨_, rfl⟩ | exact hrest

/-- Single-string validation either passes or raises AssertionError when the
expectation is a string. -/
lemma validate_string_output_shape (s : String) (out : String) (cs : Bool) :
    validate_string_output (Value.str s) out cs = Except.ok () ∨
    ∃ m, validate_string_output (Value.str s) out cs = Except.error (VErr.assert m) := by
  cases cs <;> simp only [validate_string_output] <;> split_ifs <;>
    first | exact Or.inl rfl | exact Or.inr ⟨_, rfl⟩
/-- Under a well-formed test, validation either passes or raises
AssertionError — never any other exception. -/
lemma run_test_shape (t : Test) (ns : List (String × Value)) (printed : List String)
    (out : String) (hwf : wellFormedTest t = true) :
    run_test t ns printed out = Except.ok () ∨
    ∃ m, run_test t ns printed out = Except.error (VErr.assert m) := by
  unfold wellFormedTest at hwf
  rw [Bool.and_eq_true, Bool.or_eq_true] at hwf
  obtain ⟨hvars, hcase⟩ := hwf
  rcases hcase with hvar | hout
  · rw [Bool.and_eq_true, decide_eq_true_eq] at hvar
    obtain ⟨hty, hexp⟩ := hvar
    have hgoal : run_test t ns printed out = validate_variable_test t ns := by
      unfold run_test
      rw [hty]
      simp
    rw [hgoal]
    unfold validate_variable_test
    rcases he : t.expected with _ | v
    · simp only [he] at hexp; cases hexp
    · rcases v with n | q | ⟨re, im⟩ | b | s | xs | fs | _
      · simp only [he] at hexp; cases hexp
      · simp only [he] at hexp; cases hexp
      · simp only [he] at hexp; cases hexp
      · simp only [he] at hexp; cases hexp
      · simp only [he] at hexp; cases hexp
      · simp only [he] at hexp; cases hexp
      · simp only [he] at hexp
        simp only [he]
        exact validate_variable_loop_shape t.tol ns fs hexp
      · simp only [he] at hexp; cases hexp
  · rw [Bool.and_eq_true, decide_eq_true_eq] at hout
    obtain ⟨hty, hrest⟩ := hout
    have hgoal : run_test t ns printed out = validate_output_test t printed out := by
      unfold run_test
      rw [hty]
      simp
    rw [hgoal]
    unfold validate_output_test
    rcases hf : t.format with _ | fmt
    · simp only [hf] at hrest
      simp only [hf, Option.isSome_none, Bool.false_eq_true, if_false]
      rcases he : t.expected with _ | v
      · simp only [he] at hrest; cases hrest
      · rcases v with n | q | ⟨re, im⟩ | b | s | xs | fs | _
        · simp only [he] at hrest; cases hrest
        · simp only [he] at hrest; cases hrest
        · simp only [he] at hrest; cases hrest
        · simp only [he] at hrest; cases hrest
        · simp only [he]
          exact validate_string_output_shape s _ _
        · simp only [he] at hrest
          simp only [he]
          unfold validate_list_output
          apply validate_list_output_pairs_shape
          intro pr hpr
          have hmem := (List.of_mem_zip hpr).1
          have hall := List.all_eq_true.mp hrest pr.1 hmem
          rcases hpr1 : pr.1 with n | q | ⟨re, im⟩ | b | s | ys | gs | _ <;>
            rw [hpr1] at hall
          · cases hall
          · cases hall
          · cases hall
          · cases hall
          · exact ⟨_, rfl⟩
          · cases hall
          · cases hall
          · cases hall
        · simp only [he] at hrest; cases hrest
        · simp only [he] at hrest; cases hrest
    · simp only [hf] at hrest
      rw [if_pos (show (some fmt : Option String).isSome = true from rfl)]
      unfold validate_format_output
      rw [hf]
      rcases hp : parseFormat fmt.toList with _ | toks
      · rw [hp] at hrest; cases hrest
      · simp only [hp] at hrest
        rw [Bool.and_eq_true, decide_eq_true_eq] at hrest
        obtain ⟨hnd, hexp⟩ := hrest
        simp only [hp, if_pos hnd]
        rcases hm : matchTokens (!t.case_sensitive.getD false) toks
            (normalize_whitespace
              (if printed ≠ [] then String.intercalate "\n" printed else out)).toList
          with _ | groups <;> simp only [hm]
        · exact Or.inr ⟨_, rfl⟩
        · rcases he : t.expected with _ | v
          · simp only [he]
            exact compare_extracted_loop_shape t.tol groups []
          · rcases v with n | q | ⟨re, im⟩ | b | s | xs | fs | _
            · simp only [he] at hexp; cases hexp
            · simp only [he] at hexp; cases hexp
            · simp only [he] at hexp; cases hexp
            · simp only [he] at hexp; cases hexp
            · simp only [he] at hexp; cases hexp
            · simp only [he] at hexp; cases hexp
            · simp only [he]
              exact compare_extracted_loop_shape t.tol groups fs
            · simp only [he] at hexp; cases hexp

/-- Under a well-formed test, `_run_single_test` always returns a result: a
pass with an empty message, or a failure with a nonempty diagnostic — no
exception escapes the test boundary. -/
lemma run_single_test_ok (sanitize : String → String) (exec : ExecOracle) (t : Test)
    (i : Nat) (p : Problem) (cell : NbCell) (off : Nat)
    (hwf : wellFormedTest t = true) :
    ∃ r, run_single_test sanitize exec t i p cell off = Except.ok r ∧
      (r.passed = true ∧ r.failure_message = "" ∨
       r.passed = false ∧ r.failure_message ≠ "") := by
  have hvars : t.vars.all (fun kv => convertOk kv.2) = true := by
    unfold wellFormedTest at hwf
    rw [Bool.and_eq_true] at hwf
    exact hwf.1
  obtain ⟨ns, hns⟩ := create_test_namespace_loop_ok t.vars hvars
  obtain ⟨istr, histr⟩ := build_input_description_ok t hvars
  unfold run_single_test
  rw [show create_test_namespace t = create_test_namespace_loop t.vars from rfl, hns, histr]
  rcases hsafe : is_code_safe (prepare_code sanitize cell off t p) with ⟨b, reason⟩
  simp only [bind, Except.bind]
  rw [hsafe]
  cases b
  · refine ⟨_, rfl, Or.inr ⟨rfl, ?_⟩⟩
    apply append_left_ne_empty
    apply append_left_ne_empty
    apply append_left_ne_empty
    apply append_left_ne_empty
    intro hcontra
    have := congrArg String.data hcontra
    rw [String.data_append] at this
    cases this
  · rcases hbeh : execute_code (exec (prepare_code sanitize cell off t p) ns) with e | cout <;>
      dsimp only
    · by_cases hdl : e.msg = "__DEADLOOP__"
      · rw [if_pos hdl]
        refine ⟨_, rfl, Or.inr ⟨rfl, ?_⟩⟩
        apply append_left_ne_empty
        apply append_left_ne_empty
        apply append_left_ne_empty
        intro hcontra
        have := congrArg String.data hcontra
        rw [String.data_append] at this
        cases this
      · rw [if_neg hdl]
        refine ⟨_, rfl, Or.inr ⟨rfl, ?_⟩⟩
        apply append_left_ne_empty
        apply append_left_ne_empty
        apply append_left_ne_empty
        apply append_left_ne_empty
        apply append_left_ne_empty
        apply append_left_ne_empty
        intro hcontra
        have := congrArg String.data hcontra
        rw [String.data_append] at this
        cases this
    · rcases run_test_shape t (exec (prepare_code sanitize cell off t p) ns).ns
          (exec (prepare_code sanitize cell off t p) ns).printed_outputs cout hwf
        with hok | ⟨m, herr⟩
      · rw [hok]
        exact ⟨_, rfl, Or.inl ⟨rfl, rfl⟩⟩

      · rw [herr]
        refine ⟨_, rfl, Or.inr ⟨rfl, ?_⟩⟩
        apply append_left_ne_empty
        apply append_left_ne_empty
        apply append_left_ne_empty
        apply append_left_ne_empty
        intro hcontra
        have := congrArg String.data hcontra
        rw [String.data_append] at this
        cases this

/-- The per-test loop returns one entry per test, splits the tests between
passes and failure diagnostics, and gives every failing entry a nonempty
message. -/
lemma grade_tests_loop_ok (sanitize : String → String) (exec : ExecOracle) (pi : Nat)
    (p : Problem) (cell : NbCell) (off : Nat) :
    ∀ (tests : List Test) (start : Nat), tests.all wellFormedTest = true →
    ∃ acc, grade_tests_loop sanitize exec pi p cell off start tests = Except.ok acc ∧
      acc.test_results.length = tests.length ∧
      acc.passed + acc.failed_tests.length = tests.length ∧
      (∀ e ∈ acc.test_results, e.2.1 = 1 ∨ e.2.2 ≠ "") := by
  intro tests
  induction tests with
  | nil =>
    intro start _
    exact ⟨{}, rfl, rfl, rfl, by intro e he; cases he⟩
  | cons t rest ih =>
    intro start hwf
    rw [List.all_cons, Bool.and_eq_true] at hwf
    obtain ⟨r, hr, hdich⟩ := run_single_test_ok sanitize exec t start p cell off hwf.1
    obtain ⟨acc, hacc, hlen, hsum, hmsgs⟩ := ih (start + 1) hwf.2
    refine ⟨{ passed := (if r.passed then 1 else 0) + acc.passed,
              failed_tests := (if r.passed then [] else [r.failure_message]) ++ acc.failed_tests,
              safety_violations :=
                (if !r.passed && strContains (pyLower r.failure_message) "blocked" then 1 else 0)
                  + acc.safety_violations,
              timeout_violations :=
                (if !r.passed && !strContains (pyLower r.failure_message) "blocked"
                    && strContains (pyLower r.failure_message) "timeout" then 1 else 0)
                  + acc.timeout_violations,
              test_results :=
                (s!"prob{pi}_test{start}", (if r.passed then 1 else 0), r.failure_message)
                  :: acc.test_results }, ?_, ?_, ?_, ?_⟩
    · simp only [grade_tests_loop]
      rw [hr, hacc]
      rfl
    · simp only [List.length_cons, hlen]
    · rcases hdich with ⟨hp, _⟩ | ⟨hp, _⟩ <;> rw [hp] <;> simp <;> omega
    · intro e he
      rcases List.mem_cons.mp he with h | h
      · subst h
        rcases hdich with ⟨hp, _⟩ | ⟨hp, hm⟩
        · rw [hp]
          exact Or.inl rfl
        · rw [hp]
          exact Or.inr hm
      · exact hmsgs e h

/-- `_grade_single_problem` returns a result whose score is exactly
`passed / total × pts` (so failed tests earn nothing), with the declared
point value, and whose per-test entries carry a pass bit or a nonempty
diagnostic — a missing cell included. -/
lemma grade_single_problem_ok (sanitize : String → String) (exec : ExecOracle)
    (p : Problem) (pi ci : Nat) (cells : List NbCell)
    (hwf : p.tests.all wellFormedTest = true) :
    ∃ g, grade_single_problem sanitize exec p pi ci cells = Except.ok g ∧
      g.result.total = p.tests.length ∧
      g.result.pts = p.pts.getD 1 ∧
      g.result.score = (g.result.passed : Rat) / (g.result.total : Rat) * g.result.pts ∧
      g.score = g.result.score ∧
      g.max_score = p.pts.getD 1 ∧
      (∀ e ∈ g.test_results, e.2.1 = 1 ∨ e.2.2 ≠ "") := by
  unfold grade_single_problem
  rcases hc : get_code_cell_by_index cells ci with e | cell
  · refine ⟨_, rfl, rfl, rfl, ?_, rfl, rfl, by intro e he; cases he⟩
    show (0 : Rat) = (0 : Rat) / (p.tests.length : Rat) * (p.pts.getD 1)
    rw [zero_div, zero_mul]
  · obtain ⟨acc, hacc, hlen, hsum, hmsgs⟩ :=
      grade_tests_loop_ok sanitize exec pi p cell (p.line_offset.getD 0) p.tests 1 hwf
    dsimp only
    rw [hacc]
    simp only [bind, Except.bind]
    refine ⟨{ result := create_problem_result (some ci) acc.passed p.tests.length
                (if p.tests.isEmpty then 0
                 else (acc.passed : Rat) / (p.tests.length : Rat) * (p.pts.getD 1))
                (p.pts.getD 1) acc.failed_tests acc.safety_violations acc.timeout_violations,
              score := (if p.tests.isEmpty then 0
                        else (acc.passed : Rat) / (p.tests.length : Rat) * (p.pts.getD 1)),
              max_score := p.pts.getD 1, test_results := acc.test_results },
            rfl, rfl, rfl, ?_, rfl, rfl, hmsgs⟩
    show (if p.tests.isEmpty then (0 : Rat)
          else (acc.passed : Rat) / (p.tests.length : Rat) * (p.pts.getD 1)) =
        (acc.passed : Rat) / (p.tests.length : Rat) * (p.pts.getD 1)
    by_cases hemp : p.tests.isEmpty
    · have hlen0 : p.tests.length = 0 := by
        rwa [List.isEmpty_iff_length_eq_zero] at hemp
      have hp0 : acc.passed = 0 := by omega
      rw [if_pos hemp, hp0]
      norm_num
    · rw [if_neg hemp]

/-- The problem loop never aborts under a well-formed configuration: one
result per problem, every result's score exactly `passed / total × pts`,
every failing per-test entry carrying a nonempty diagnostic. -/
lemma grade_problems_loop_ok (sanitize : String → String) (exec : ExecOracle)
    (cells : List NbCell) :
    ∀ (problems : List Problem) (pi cc : Nat), wellFormedProblems problems = true →
    ∃ res, grade_problems_loop sanitize exec cells pi cc problems = Except.ok res ∧
      res.results.length = problems.length ∧
      (∀ r ∈ res.results, r.score = (r.passed : Rat) / (r.total : Rat) * r.pts) ∧
      (∀ e ∈ res.test_results, e.2.1 = 1 ∨ e.2.2 ≠ "") := by
  intro problems
  induction problems with
  | nil =>
    intro pi cc _
    exact ⟨⟨[], 0, 0, []⟩, rfl, rfl, (by intro r hr; cases hr), (by intro e he; cases he)⟩
  | cons p rest ih =>
    intro pi cc hwf
    unfold wellFormedProblems at hwf
    rw [List.all_cons, Bool.and_eq_true] at hwf
    obtain ⟨hp, hrest⟩ := hwf
    unfold wellFormedProblem at hp
    rw [Bool.and_eq_true] at hp
    obtain ⟨hncc, htests⟩ := hp
    rcases hn : p.next_code_cell with _ | n
    · rw [hn] at hncc; cases hncc
    obtain ⟨g, hg, hgtotal, hgpts, hgscore, hgs, hgm, hgmsg⟩ :=
      grade_single_problem_ok sanitize exec p pi (cc + n) cells htests
    obtain ⟨res, hres, hlen, hscores, hmsgs⟩ := ih (pi + 1) (cc + n) hrest
    have hstep : grade_problems_loop sanitize exec cells pi cc (p :: rest) =
        Except.ok ⟨g.result :: res.results, g.score + res.total_score,
                   g.max_score + res.max_score, g.test_results ++ res.test_results⟩ := by
      simp only [grade_problems_loop, hn]
      simp only [bind, Except.bind]
      rw [hg]
      rw [hres]
    refine ⟨_, hstep, ?_, ?_, ?_⟩
    · simp only [List.length_cons, hlen]
    · intro r hr
      rcases List.mem_cons.mp hr with h | h
      · subst h
        rw [hgscore]
      · exact hscores r h
    · intro e he
      rcases List.mem_append.mp he with h | h
      · exact hgmsg e h
      · exact hmsgs e h

/-- **C4** (confirmed).  For every execution oracle (hence every notebook
fragment behaviour) and every well-formed configuration, grading never aborts:
every problem produces its result, every result's score is exactly
`passed / total × pts` — failures of any kind earn zero credit — and every
per-test entry is either a pass bit or a nonempty diagnostic string.
Moreover each single test run returns a result at the test boundary: passes
carry an empty message, and every failure kind (SafetyBlocked, Timeout,
RuntimeError, AssertionFailed) is converted into a nonempty diagnostic — it
never aborts sibling tests or later problems; a missing cell (CellNotFound)
is caught at the problem boundary and scored zero (`grade_single_problem_ok`
feeds the same invariant through the loop). -/
theorem per_test_failures_contained (sanitize : String → String) (exec : ExecOracle)
    (problems : List Problem) (cells : List NbCell)
    (hwf : wellFormedProblems problems = true) :
    (∃ res, grade_all_problems sanitize exec problems cells = Except.ok res ∧
      res.results.length = problems.length ∧
      (∀ r ∈ res.results, r.score = (r.passed : Rat) / (r.total : Rat) * r.pts) ∧
      (∀ e ∈ res.test_results, e.2.1 = 1 ∨ e.2.2 ≠ "")) ∧
    (∀ (t : Test) (i : Nat) (p : Problem) (cell : NbCell) (off : Nat),
      wellFormedTest t = true →
      ∃ r, run_single_test sanitize exec t i p cell off = Except.ok r ∧
        (r.passed = true ∧ r.failure_message = "" ∨
         r.passed = false ∧ r.failure_message ≠ "")) :=
  ⟨grade_problems_loop_ok sanitize exec cells problems 1 0 hwf,
   fun t i p cell off hwft => run_single_test_ok sanitize exec t i p cell off hwft⟩

/-- Witness for C4 at a concrete configuration, notebook and oracle: one
problem with a passing and a failing variable test. -/
theorem per_test_failures_contained_witness :
    (∃ res, grade_all_problems id c4Oracle c4Problems c4Cells = Except.ok res ∧
      res.results.length = c4Problems.length ∧
      (∀ r ∈ res.results, r.score = (r.passed : Rat) / (r.total : Rat) * r.pts) ∧
      (∀ e ∈ res.test_results, e.2.1 = 1 ∨ e.2.2 ≠ "")) ∧
    (∀ (t : Test) (i : Nat) (p : Problem) (cell : NbCell) (off : Nat),
      wellFormedTest t = true →
      ∃ r, run_single_test id c4Oracle t i p cell off = Except.ok r ∧
        (r.passed = true ∧ r.failure_message = "" ∨
         r.passed = false ∧ r.failure_message ≠ "")) :=
  per_test_failures_contained id c4Oracle c4Problems c4Cells (by decide)

/-- **C6** (corrected, amended claim).  When the fragment raises an exception,
the executor (`run_cell` / `_execute_code`) propagates it to the caller
unchanged, and `_run_single_test` classifies it by its message: any exception
whose `str` is NOT the distinguished `"__DEADLOOP__"` marker becomes the
RuntimeError diagnostic with the exception's type name and message verbatim —
but an exception whose message equals the marker is indistinguishable from a
genuine timeout and is classified as Timeout. -/
theorem runtime_error_classification (sanitize : String → String) (exec : ExecOracle)
    (t : Test) (i : Nat) (p : Problem) (cell : NbCell) (off : Nat) (e : PyExc)
    (ns : List (String × Value)) (istr : String)
    (hns : create_test_namespace t = Except.ok ns)
    (hdesc : build_input_description t = Except.ok istr)
    (hsafe : (is_code_safe (prepare_code sanitize cell off t p)).1 = true)
    (hev : (exec (prepare_code sanitize cell off t p) ns).event = RunEvent.raises e) :
    execute_code (exec (prepare_code sanitize cell off t p) ns) = Except.error e ∧
    run_single_test sanitize exec t i p cell off = Except.ok
      { passed := false,
        failure_message :=
          if e.msg = "__DEADLOOP__" then
            "Test " ++ toString i ++ " timeout on input (" ++ istr ++ ")"
          else
            "Test " ++ toString i ++ " error (" ++ e.ty ++ ") on input (" ++ istr ++ "): "
              ++ e.msg } := by
  have hexec : execute_code (exec (prepare_code sanitize cell off t p) ns) = Except.error e := by
    unfold execute_code
    rw [hev]
    rfl
  refine ⟨hexec, ?_⟩
  unfold run_single_test
  rw [hns, hdesc]
  simp only [bind, Except.bind]
  rcases hsc : is_code_safe (prepare_code sanitize cell off t p) with ⟨b, reason⟩
  rw [hsc] at hsafe
  cases b
  · cases hsafe
  · dsimp only
    rw [hexec]
    dsimp only
    by_cases hdl : e.msg = "__DEADLOOP__"
    · rw [if_pos hdl, if_pos hdl]
    · rw [if_neg hdl, if_neg hdl]

/-- Witness for the amended C6: a fragment raising `TypeError("boom")` is
classified as a RuntimeError with type and message preserved verbatim. -/
theorem runtime_error_classification_witness :
    execute_code (c6WitnessOracle (prepare_code id plainCell 0 c6Test {}) []) =
      Except.error ⟨"TypeError", "boom"⟩ ∧
    run_single_test id c6WitnessOracle c6Test 1 {} plainCell 0 = Except.ok
      { passed := false,
        failure_message :=
          if ("boom" : String) = "__DEADLOOP__" then
            "Test " ++ toString 1 ++ " timeout on input (" ++ "" ++ ")"
          else
            "Test " ++ toString 1 ++ " error (" ++ "TypeError" ++ ") on input (" ++ "" ++ "): "
              ++ "boom" } :=
  runtime_error_classification id c6WitnessOracle c6Test 1 {} plainCell 0
    ⟨"TypeError", "boom"⟩ [] "" rfl rfl (by decide) rfl
